import Mathlib

/-!
# Verification of the rope-physics / braid-tracking engine

Shallow embedding of the core of the `itsknotfun` repository:
the braid algebra (`Crossing`, `BraidWord`), the 2D geometry helpers
(`Vec2`, `Segment.segmentIntersection`), the particle/constraint physics
(`Particle`, `DistanceConstraint`, `BendingConstraint`, `TangleConstraint`,
`Rope`) and the orchestrating `PhysicsWorld.step`.

Modelling conventions:
* JavaScript numbers are modelled as real numbers (`ℝ`); the braid module,
  which only uses integer generators/signs and timestamps, is modelled with
  `ℕ`/`ℤ`/`ℚ` and is fully computable.
* Mutable objects are modelled by explicit state passing: a method that
  mutates `this` becomes a function returning the updated value.
* JavaScript object references are modelled as indices: a particle reference
  held by a tangle constraint is a pair (rope id, index in the rope's
  particle array); `Array.prototype.indexOf` on such a reference returns
  that index (references are unique, arrays are never reordered).
* `Map`/`Set` with string keys of the shape "a-b-c-d" (decimal numbers
  joined by dashes) are modelled as association lists / lists over 4-tuples
  of naturals; the string encoding of number tuples is injective.
* Callbacks are modelled as event logs: a world carries a list of emitted
  crossing/tangle events, and a boolean per callback slot records whether a
  callback is registered (the null-check in the source).
-/

namespace ItsKnotFun

/-! ## Braid algebra (Crossing, BraidWord) -/

/-- A single crossing event: generator (1 for σ₁, 2 for σ₂), sign
(1 over / -1 under), timestamp in seconds. -/
structure Crossing where
  generator : ℕ
  sign : ℤ
  timestamp : ℚ
deriving DecidableEq

/-- `Crossing.cancels`: same generator, opposite sign. -/
def Crossing.cancels (a b : Crossing) : Prop :=
  a.generator = b.generator ∧ a.sign = -b.sign

instance (a b : Crossing) : Decidable (a.cancels b) := by
  unfold Crossing.cancels; infer_instance

/-- The inverse of a crossing (same generator and timestamp, negated sign). -/
def Crossing.inverse (c : Crossing) : Crossing :=
  ⟨c.generator, -c.sign, c.timestamp⟩

namespace BraidWord

/-- Writhe of a braid word: signed sum of the crossing signs. -/
def writhe (w : List Crossing) : ℤ :=
  (w.map Crossing.sign).sum

/-- Complexity metric: |writhe| + ⌊length/2⌋. -/
def complexity (w : List Crossing) : ℤ :=
  |writhe w| + (w.length / 2 : ℕ)

/-- One step of the `simplify` loop.  The source keeps the partial result in
an array, cancelling the pushed crossing against the array's last element;
here the accumulator is kept in reverse order (head = last pushed). -/
def simplifyStep (result : List Crossing) (c : Crossing) : List Crossing :=
  match result with
  | top :: rest => if top.cancels c then rest else c :: top :: rest
  | [] => [c]

/-- `BraidWord.simplify`: one left-to-right pass cancelling adjacent
inverse pairs, as in the source (words of length < 2 are returned as a
clone). -/
def simplify (w : List Crossing) : List Crossing :=
  if w.length < 2 then w else (w.foldl simplifyStep []).reverse

/-- `BraidWord.applyYangBaxter`: scan left to right; at the first window of
three consecutive crossings matching σ₁σ₂σ₁ (all same sign) rewrite it to
σ₂σ₁σ₂ keeping signs and timestamps, or symmetrically σ₂σ₁σ₂ → σ₁σ₂σ₁, and
report `true`; otherwise report `false` with the word unchanged. -/
def applyYangBaxter : List Crossing → List Crossing × Bool
  | a :: b :: c :: rest =>
    if a.generator = 1 ∧ b.generator = 2 ∧ c.generator = 1 ∧
        a.sign = b.sign ∧ b.sign = c.sign then
      (⟨2, a.sign, a.timestamp⟩ :: ⟨1, b.sign, b.timestamp⟩ ::
        ⟨2, c.sign, c.timestamp⟩ :: rest, true)
    else if a.generator = 2 ∧ b.generator = 1 ∧ c.generator = 2 ∧
        a.sign = b.sign ∧ b.sign = c.sign then
      (⟨1, a.sign, a.timestamp⟩ :: ⟨2, b.sign, b.timestamp⟩ ::
        ⟨1, c.sign, c.timestamp⟩ :: rest, true)
    else
      let p := applyYangBaxter (b :: c :: rest)
      (a :: p.1, p.2)
  | l => (l, false)

/-- The body of `BraidWord.reduce`'s while-loop, with explicit fuel.  Each
iteration simplifies, then applies one Yang-Baxter rewrite; the loop exits
when an iteration leaves the word length unchanged or the fuel (the
source's `maxIterations = 100`) runs out. -/
def reduceLoop : ℕ → List Crossing → List Crossing
  | 0, cur => cur
  | fuel + 1, cur =>
    if ((applyYangBaxter (simplify cur)).1).length = cur.length then
      (applyYangBaxter (simplify cur)).1
    else reduceLoop fuel (applyYangBaxter (simplify cur)).1

/-- `BraidWord.reduce`: the rewrite loop run with the source's iteration
cap of 100.  The source clones the receiver first, so the live word is
never mutated; in this embedding that purity is inherent. -/
def reduce (w : List Crossing) : List Crossing :=
  reduceLoop 100 w

end BraidWord

/-- Does a word contain three consecutive crossings matching the σ₁σ₂σ₁ or
σ₂σ₁σ₂ pattern with all three signs equal?  This is exactly the guard
tested by `applyYangBaxter` at each window. -/
def ybTriple (a b c : Crossing) : Bool :=
  ((a.generator == 1 && b.generator == 2 && c.generator == 1) ||
   (a.generator == 2 && b.generator == 1 && c.generator == 2)) &&
  a.sign == b.sign && b.sign == c.sign

/-- Whether some window of three consecutive crossings matches a
Yang-Baxter pattern. -/
def hasYBPattern : List Crossing → Bool
  | a :: b :: c :: rest => ybTriple a b c || hasYBPattern (b :: c :: rest)
  | _ => false

lemma ybTriple_eq_true_iff (a b c : Crossing) :
    ybTriple a b c = true ↔
      ((a.generator = 1 ∧ b.generator = 2 ∧ c.generator = 1 ∧
          a.sign = b.sign ∧ b.sign = c.sign) ∨
       (a.generator = 2 ∧ b.generator = 1 ∧ c.generator = 2 ∧
          a.sign = b.sign ∧ b.sign = c.sign)) := by
  simp only [ybTriple, Bool.and_eq_true, Bool.or_eq_true, beq_iff_eq]
  tauto

lemma applyYangBaxter_of_no_pattern :
    ∀ w : List Crossing, hasYBPattern w = false →
      BraidWord.applyYangBaxter w = (w, false)
  | [], _ => rfl
  | [a], _ => rfl
  | [a, b], _ => rfl
  | a :: b :: c :: rest, h => by
    have h' : ybTriple a b c = false ∧ hasYBPattern (b :: c :: rest) = false := by
      simpa [hasYBPattern, Bool.or_eq_false_iff] using h
    have hnot := h'.1
    have hno : ¬ ((a.generator = 1 ∧ b.generator = 2 ∧ c.generator = 1 ∧
          a.sign = b.sign ∧ b.sign = c.sign) ∨
        (a.generator = 2 ∧ b.generator = 1 ∧ c.generator = 2 ∧
          a.sign = b.sign ∧ b.sign = c.sign)) := by
      rw [← ybTriple_eq_true_iff]
      simp [hnot]
    have ih := applyYangBaxter_of_no_pattern (b :: c :: rest) h'.2
    rw [BraidWord.applyYangBaxter]
    rw [if_neg (fun hc => hno (Or.inl hc)), if_neg (fun hc => hno (Or.inr hc))]
    simp [ih]

lemma writhe_simplifyStep (res : List Crossing) (c : Crossing) :
    BraidWord.writhe (BraidWord.simplifyStep res c) =
      BraidWord.writhe res + c.sign := by
  cases res with
  | nil => simp [BraidWord.simplifyStep, BraidWord.writhe]
  | cons top rest =>
    by_cases h : top.cancels c
    · have hsign : top.sign = -c.sign := h.2
      simp [BraidWord.simplifyStep, if_pos h, BraidWord.writhe, hsign]
    · simp [BraidWord.simplifyStep, if_neg h, BraidWord.writhe]
      ring

lemma writhe_foldl_simplifyStep :
    ∀ (l acc : List Crossing),
      BraidWord.writhe (l.foldl BraidWord.simplifyStep acc) =
        BraidWord.writhe acc + BraidWord.writhe l
  | [], acc => by simp [BraidWord.writhe]
  | c :: l, acc => by
    rw [List.foldl_cons, writhe_foldl_simplifyStep l, writhe_simplifyStep]
    simp [BraidWord.writhe]
    ring

lemma writhe_reverse (l : List Crossing) :
    BraidWord.writhe l.reverse = BraidWord.writhe l := by
  simp [BraidWord.writhe, List.sum_reverse]

lemma writhe_simplify (w : List Crossing) :
    BraidWord.writhe (BraidWord.simplify w) = BraidWord.writhe w := by
  unfold BraidWord.simplify
  split
  · rfl
  · rw [writhe_reverse, writhe_foldl_simplifyStep]
    simp [BraidWord.writhe]

lemma applyYangBaxter_writhe_length :
    ∀ w : List Crossing,
      BraidWord.writhe (BraidWord.applyYangBaxter w).1 = BraidWord.writhe w ∧
      (BraidWord.applyYangBaxter w).1.length = w.length
  | [] => by simp [BraidWord.applyYangBaxter]
  | [a] => by simp [BraidWord.applyYangBaxter]
  | [a, b] => by simp [BraidWord.applyYangBaxter]
  | a :: b :: c :: rest => by
    have ih := applyYangBaxter_writhe_length (b :: c :: rest)
    rw [BraidWord.applyYangBaxter]
    split
    · simp [BraidWord.writhe]
    · split
      · simp [BraidWord.writhe]
      · constructor
        · simp only [BraidWord.writhe, List.map_cons, List.sum_cons]
          have := ih.1
          simp only [BraidWord.writhe] at this
          simp [this]
        · have := ih.2
          simpa using this

lemma writhe_reduceLoop :
    ∀ (fuel : ℕ) (w : List Crossing),
      BraidWord.writhe (BraidWord.reduceLoop fuel w) = BraidWord.writhe w
  | 0, w => rfl
  | fuel + 1, w => by
    have hstep : BraidWord.writhe (BraidWord.applyYangBaxter (BraidWord.simplify w)).1 =
        BraidWord.writhe w := by
      rw [(applyYangBaxter_writhe_length _).1, writhe_simplify]
    rw [BraidWord.reduceLoop]
    split
    · exact hstep
    · rw [writhe_reduceLoop fuel]
      exact hstep

/-! ### Claims C6, C7, C10 -/

/-- C6: `applyYangBaxter` on the braid word [σ1, σ2, σ1] with all three
crossings of the same sign rewrites it to [σ2, σ1, σ2] (same signs, same
timestamps) and returns true; and on any word with no three consecutive
same-sign crossings matching the σ1σ2σ1 or σ2σ1σ2 pattern it returns false
and leaves the word unchanged. -/
theorem applyYangBaxter_spec :
    (∀ (s : ℤ) (t1 t2 t3 : ℚ),
      BraidWord.applyYangBaxter [⟨1, s, t1⟩, ⟨2, s, t2⟩, ⟨1, s, t3⟩] =
        ([⟨2, s, t1⟩, ⟨1, s, t2⟩, ⟨2, s, t3⟩], true)) ∧
    (∀ w : List Crossing, hasYBPattern w = false →
      BraidWord.applyYangBaxter w = (w, false)) := by
  constructor
  · intro s t1 t2 t3
    rw [BraidWord.applyYangBaxter]
    rw [if_pos]
    exact ⟨rfl, rfl, rfl, rfl, rfl⟩
  · exact applyYangBaxter_of_no_pattern

/-- Witness for C6: a concrete pattern-free word is returned unchanged with
result false (and the concrete σ1σ2σ1 word is rewritten). -/
theorem applyYangBaxter_spec_witness :
    BraidWord.applyYangBaxter [⟨1, 1, 0⟩, ⟨2, -1, 1⟩] = ([⟨1, 1, 0⟩, ⟨2, -1, 1⟩], false) ∧
    BraidWord.applyYangBaxter [⟨1, 1, 0⟩, ⟨2, 1, 1⟩, ⟨1, 1, 2⟩] =
      ([⟨2, 1, 0⟩, ⟨1, 1, 1⟩, ⟨2, 1, 2⟩], true) :=
  ⟨applyYangBaxter_spec.2 [⟨1, 1, 0⟩, ⟨2, -1, 1⟩] (by decide),
   applyYangBaxter_spec.1 1 0 1 2⟩

/-- C7: `BraidWord.reduce` terminates on every input: it is the rewrite
loop (simplify, then one Yang-Baxter pass) run with the source's fixed cap
of 100 iterations, and the loop stops as soon as an iteration leaves the
word length unchanged.  The source's `reduce` works on a clone, so the
receiver word is never mutated; in this pure embedding `reduce` is a
function and the input word is unchanged by construction. -/
theorem reduce_termination_spec :
    ∀ w : List Crossing,
      BraidWord.reduce w = BraidWord.reduceLoop 100 w ∧
      (∀ fuel : ℕ,
        ((BraidWord.applyYangBaxter (BraidWord.simplify w)).1.length = w.length →
          BraidWord.reduceLoop (fuel + 1) w =
            (BraidWord.applyYangBaxter (BraidWord.simplify w)).1)) := by
  intro w
  refine ⟨rfl, fun fuel h => ?_⟩
  rw [BraidWord.reduceLoop, if_pos h]

/-- Witness for C7: the early-exit clause evaluated on a concrete
length-stable word. -/
theorem reduce_termination_spec_witness :
    BraidWord.reduceLoop 1 [⟨1, 1, 0⟩] =
      (BraidWord.applyYangBaxter (BraidWord.simplify [⟨1, 1, 0⟩])).1 :=
  (reduce_termination_spec [⟨1, 1, 0⟩]).2 0 (by decide)

/-- C10: braid-word rewriting preserves writhe: `simplify` preserves the
writhe, `applyYangBaxter` preserves both the writhe and the word length
whether or not it rewrites, and consequently `reduce` preserves the
writhe. -/
theorem braid_rewriting_preserves_writhe :
    ∀ w : List Crossing,
      BraidWord.writhe (BraidWord.simplify w) = BraidWord.writhe w ∧
      BraidWord.writhe (BraidWord.applyYangBaxter w).1 = BraidWord.writhe w ∧
      (BraidWord.applyYangBaxter w).1.length = w.length ∧
      BraidWord.writhe (BraidWord.reduce w) = BraidWord.writhe w := by
  intro w
  refine ⟨writhe_simplify w, (applyYangBaxter_writhe_length w).1,
    (applyYangBaxter_writhe_length w).2, ?_⟩
  exact writhe_reduceLoop 100 w

/-! ## Geometry utilities (Vec2, Segment)

JavaScript floating-point numbers are modelled as real numbers; the
transcendental operations (`Math.sqrt`, `Math.exp`, `Math.asin`,
`Math.acos`) are modelled by their exact real counterparts, so this part
of the embedding is noncomputable. -/

noncomputable section

structure Vec2 where
  x : ℝ
  y : ℝ

namespace Vec2

def zero : Vec2 := ⟨0, 0⟩

def add (a b : Vec2) : Vec2 := ⟨a.x + b.x, a.y + b.y⟩

def sub (a b : Vec2) : Vec2 := ⟨a.x - b.x, a.y - b.y⟩

def mul (a : Vec2) (s : ℝ) : Vec2 := ⟨a.x * s, a.y * s⟩

/-- `Vec2.div`: the source returns the zero vector on division by zero. -/
def div (a : Vec2) (s : ℝ) : Vec2 :=
  if s = 0 then zero else ⟨a.x / s, a.y / s⟩

def dot (a b : Vec2) : ℝ := a.x * b.x + a.y * b.y

/-- 2D cross product (z component of the 3D cross product). -/
def cross (a b : Vec2) : ℝ := a.x * b.y - a.y * b.x

def lengthSq (a : Vec2) : ℝ := a.x * a.x + a.y * a.y

def length (a : Vec2) : ℝ := Real.sqrt a.lengthSq

def distanceTo (a b : Vec2) : ℝ :=
  Real.sqrt ((b.x - a.x) * (b.x - a.x) + (b.y - a.y) * (b.y - a.y))

/-- `Vec2.normalize`: the source returns the zero vector for a zero-length
input. -/
def normalize (a : Vec2) : Vec2 :=
  if a.length = 0 then zero else a.div a.length

def lerp (a b : Vec2) (t : ℝ) : Vec2 :=
  ⟨a.x + (b.x - a.x) * t, a.y + (b.y - a.y) * t⟩

end Vec2

namespace Segment

/-- `Segment.segmentIntersection`: solve for the parameters t (along
p1→p2) and u (along q1→q2) via the 2D cross-product formulation; report
non-intersection when the direction cross product is below 1e-10
(parallel/collinear, including zero-length segments), otherwise
intersection iff both parameters lie in [0,1].  The source's result object
`{intersects, point, t1, t2}` is modelled as an `Option`. -/
def segmentIntersection (p1 p2 q1 q2 : Vec2) : Option (Vec2 × ℝ × ℝ) :=
  let r := p2.sub p1
  let s := q2.sub q1
  let qp := q1.sub p1
  let rxs := r.cross s
  let qpxr := qp.cross r
  if |rxs| < 1e-10 then none
  else
    let t := qp.cross s / rxs
    let u := qpxr / rxs
    if 0 ≤ t ∧ t ≤ 1 ∧ 0 ≤ u ∧ u ≤ 1 then
      some (p1.add (r.mul t), t, u)
    else none

end Segment

/-! ### Claim C8 -/

/-- C8: `segmentIntersection` reports non-intersecting whenever the
magnitude of the 2D cross product of the direction vectors is below 1e-10
(parallel or collinear, including zero-length segments); otherwise it
reports intersecting exactly when both solved parameters t and u lie in
[0,1], and in that case returns the point p1 + t·(p2−p1) together with
both parameters. -/
theorem segmentIntersection_spec (p1 p2 q1 q2 : Vec2) :
    (|(p2.sub p1).cross (q2.sub q1)| < 1e-10 →
      Segment.segmentIntersection p1 p2 q1 q2 = none) ∧
    (¬ |(p2.sub p1).cross (q2.sub q1)| < 1e-10 →
      (((Segment.segmentIntersection p1 p2 q1 q2).isSome ↔
          (0 ≤ (q1.sub p1).cross (q2.sub q1) / (p2.sub p1).cross (q2.sub q1) ∧
            (q1.sub p1).cross (q2.sub q1) / (p2.sub p1).cross (q2.sub q1) ≤ 1 ∧
            0 ≤ (q1.sub p1).cross (p2.sub p1) / (p2.sub p1).cross (q2.sub q1) ∧
            (q1.sub p1).cross (p2.sub p1) / (p2.sub p1).cross (q2.sub q1) ≤ 1)) ∧
        ((0 ≤ (q1.sub p1).cross (q2.sub q1) / (p2.sub p1).cross (q2.sub q1) ∧
            (q1.sub p1).cross (q2.sub q1) / (p2.sub p1).cross (q2.sub q1) ≤ 1 ∧
            0 ≤ (q1.sub p1).cross (p2.sub p1) / (p2.sub p1).cross (q2.sub q1) ∧
            (q1.sub p1).cross (p2.sub p1) / (p2.sub p1).cross (q2.sub q1) ≤ 1) →
          Segment.segmentIntersection p1 p2 q1 q2 =
            some (p1.add ((p2.sub p1).mul
                ((q1.sub p1).cross (q2.sub q1) / (p2.sub p1).cross (q2.sub q1))),
              (q1.sub p1).cross (q2.sub q1) / (p2.sub p1).cross (q2.sub q1),
              (q1.sub p1).cross (p2.sub p1) / (p2.sub p1).cross (q2.sub q1))))) := by
  unfold Segment.segmentIntersection
  constructor
  · intro h
    rw [if_pos h]
  · intro h
    rw [if_neg h]
    constructor
    · constructor
      · intro hsome
        by_contra hrange
        rw [if_neg hrange] at hsome
        simp at hsome
      · intro hrange
        rw [if_pos hrange]
        rfl
    · intro hrange
      rw [if_pos hrange]

/-- Witness for C8: both clauses evaluated on concrete segments — a
degenerate (zero-length) first segment is reported non-intersecting, and a
proper perpendicular crossing is reported with its point and parameters. -/
theorem segmentIntersection_spec_witness :
    Segment.segmentIntersection ⟨0, 0⟩ ⟨0, 0⟩ ⟨0, 0⟩ ⟨1, 0⟩ = none ∧
    Segment.segmentIntersection ⟨0, 0⟩ ⟨1, 0⟩ ⟨1/2, -1⟩ ⟨1/2, 1⟩ =
      some (⟨1/2, 0⟩, 1/2, 1/2) := by
  constructor
  · exact (segmentIntersection_spec ⟨0, 0⟩ ⟨0, 0⟩ ⟨0, 0⟩ ⟨1, 0⟩).1
      (by norm_num [Vec2.sub, Vec2.cross])
  · have h := ((segmentIntersection_spec ⟨0, 0⟩ ⟨1, 0⟩ ⟨1/2, -1⟩ ⟨1/2, 1⟩).2
      (by norm_num [Vec2.sub, Vec2.cross])).2
    have h2 := h (by norm_num [Vec2.sub, Vec2.cross])
    rw [h2]
    norm_num [Vec2.sub, Vec2.cross, Vec2.add, Vec2.mul]

/-! ## Particle -/

structure Particle where
  position : Vec2
  prevPosition : Vec2
  velocity : Vec2
  inverseMass : ℝ
  mass : ℝ
  predicted : Vec2
  acceleration : Vec2
  damping : ℝ
  height : ℝ

/-- Default particle (used only to totalise list indexing; the source never
indexes out of range). -/
instance : Inhabited Particle :=
  ⟨⟨Vec2.zero, Vec2.zero, Vec2.zero, 1, 1, Vec2.zero, Vec2.zero, 0.01, 0⟩⟩

namespace Particle

/-- `new Particle(x, y, mass)`. -/
def make (x y mass : ℝ) : Particle :=
  { position := ⟨x, y⟩, prevPosition := ⟨x, y⟩, velocity := Vec2.zero,
    inverseMass := if 0 < mass then 1 / mass else 0, mass := mass,
    predicted := ⟨x, y⟩, acceleration := Vec2.zero, damping := 0.01, height := 0 }

def isPinned (p : Particle) : Prop := p.inverseMass = 0

instance (p : Particle) : Decidable p.isPinned := by
  unfold isPinned; infer_instance

def pin (p : Particle) : Particle := { p with inverseMass := 0 }

def applyForce (p : Particle) (force : Vec2) : Particle :=
  if 0 < p.inverseMass then
    { p with acceleration := p.acceleration.add (force.mul p.inverseMass) }
  else p

/-- Verlet integration: predict the new position. -/
def integrate (p : Particle) (dt : ℝ) : Particle :=
  if p.inverseMass = 0 then { p with predicted := p.position }
  else
    let v := ((p.position.sub p.prevPosition).div dt).mul (1 - p.damping)
    { p with velocity := v,
             predicted := (p.position.add (v.mul dt)).add (p.acceleration.mul (dt * dt)),
             acceleration := Vec2.zero }

/-- Commit the predicted position and re-derive velocity. -/
def updatePosition (p : Particle) (dt : ℝ) : Particle :=
  if p.inverseMass = 0 then p
  else
    { p with prevPosition := p.position, position := p.predicted,
             velocity := (p.predicted.sub p.position).div dt }

/-- `teleport(x, y)`: snap all positions together and zero the velocity. -/
def teleport (p : Particle) (x y : ℝ) : Particle :=
  { p with position := ⟨x, y⟩, prevPosition := ⟨x, y⟩, predicted := ⟨x, y⟩,
           velocity := Vec2.zero }

end Particle

/-- `BendingConstraint.calculateAngle` (`Math.acos` of the clamped cosine,
with a 1e-6 guard on the denominator). -/
def calculateAngle (a b c : Vec2) : ℝ :=
  let ba := a.sub b
  let bc := c.sub b
  Real.arccos (max (-1) (min 1 (ba.dot bc / (ba.length * bc.length + 1e-6))))

/-- `DistanceConstraint.solve` acting on the two referenced particles (the
source mutates them through references; here the updated pair is
returned). -/
def DistanceConstraint.solvePair (restLength stiffness : ℝ) (pA pB : Particle) :
    Particle × Particle :=
  let delta := pB.predicted.sub pA.predicted
  let distance := delta.length
  if distance < 1e-6 then (pA, pB)
  else
    let error := distance - restLength
    let wSum := pA.inverseMass + pB.inverseMass
    if wSum < 1e-6 then (pA, pB)
    else
      let correction := delta.mul (error * stiffness / (distance * wSum))
      ({ pA with predicted := pA.predicted.add (correction.mul pA.inverseMass) },
       { pB with predicted := pB.predicted.sub (correction.mul pB.inverseMass) })

/-- `BendingConstraint.solve` acting on the middle particle (the outer two
are read-only in the source). -/
def BendingConstraint.solveMiddle (restAngle stiffness : ℝ) (pA pB pC : Particle) :
    Particle :=
  let currentAngle := calculateAngle pA.predicted pB.predicted pC.predicted
  let angleError := currentAngle - restAngle
  if |angleError| < 0.01 then pB
  else
    let center := (pA.predicted.add pC.predicted).div 2
    let pushDir := pB.predicted.sub center
    let pushAmount := angleError * stiffness * 0.1
    if 0 < pB.inverseMass then
      { pB with predicted := pB.predicted.add (pushDir.normalize.mul pushAmount) }
    else pB

/-! ## Rope

Constraints store indices into the rope's particle array; the source
stores object references, wired to adjacent particles by the constructor,
and the arrays are never reordered, so the index view is faithful. -/

structure DistanceConstraintData where
  indexA : ℕ
  indexB : ℕ
  restLength : ℝ
  stiffness : ℝ

structure BendingConstraintData where
  indexA : ℕ
  indexB : ℕ
  indexC : ℕ
  restAngle : ℝ
  stiffness : ℝ

structure Rope where
  particles : List Particle
  distanceConstraints : List DistanceConstraintData
  bendingConstraints : List BendingConstraintData
  id : ℕ
  thickness : ℝ

instance : Inhabited Rope := ⟨⟨[], [], [], 0, 3⟩⟩

/-- Total length of a polyline given by a list of points (the summation
loops of `getCurrentLength` / `getPredictedLength`). -/
def polylineLength : List Vec2 → ℝ
  | a :: b :: rest => a.distanceTo b + polylineLength (b :: rest)
  | _ => 0

@[simp] lemma polylineLength_nil : polylineLength [] = 0 := rfl

@[simp] lemma polylineLength_single (a : Vec2) : polylineLength [a] = 0 := rfl

@[simp] lemma polylineLength_cons_cons (a b : Vec2) (rest : List Vec2) :
    polylineLength (a :: b :: rest) = a.distanceTo b + polylineLength (b :: rest) := rfl

namespace Rope

/-- `new Rope(startPos, endPos, numSegments, options)`. -/
def build (startPos endPos : Vec2) (numSegments : ℕ) (mass stiffness bendStiffness damping thickness : ℝ) (id : ℕ) : Rope :=
  let particles := (List.range (numSegments + 1)).map (fun i =>
    let pos := startPos.lerp endPos ((i : ℝ) / (numSegments : ℝ))
    { Particle.make pos.x pos.y mass with damping := damping })
  let segmentLength := startPos.distanceTo endPos / (numSegments : ℝ)
  { particles := particles,
    distanceConstraints := (List.range numSegments).map (fun i =>
      { indexA := i, indexB := i + 1, restLength := segmentLength, stiffness := stiffness }),
    bendingConstraints := (List.range (numSegments - 1)).map (fun i =>
      { indexA := i, indexB := i + 1, indexC := i + 2,
        restAngle := calculateAngle
          ((particles.getD i default).position)
          ((particles.getD (i + 1) default).position)
          ((particles.getD (i + 2) default).position),
        stiffness := bendStiffness }),
    id := id, thickness := thickness }

def startParticle (r : Rope) : Particle := r.particles.headI

def endParticle (r : Rope) : Particle := r.particles.getD (r.particles.length - 1) default

def pinStart (r : Rope) : Rope :=
  { r with particles := match r.particles with
      | [] => []
      | p :: rest => p.pin :: rest }

def getPredictedLength (r : Rope) : ℝ :=
  polylineLength (r.particles.map (·.predicted))

def getCurrentLength (r : Rope) : ℝ :=
  polylineLength (r.particles.map (·.position))

def getRestLength (r : Rope) : ℝ :=
  (r.distanceConstraints.map (·.restLength)).sum

/-- The scaling loop of `enforceMaxLength`: every non-pinned particle's
predicted position is scaled toward the anchor. -/
def scaleToward (r : Rope) (anchor : Vec2) (scaleFactor : ℝ) : Rope :=
  { r with particles := r.particles.map (fun p =>
      if p.isPinned then p
      else { p with predicted := anchor.add ((p.predicted.sub anchor).mul scaleFactor) }) }

/-- `Rope.enforceMaxLength(maxStretchFactor)`: if the total predicted
length exceeds `restLength * maxStretchFactor`, scale every non-pinned
particle's predicted position toward the pinned endpoint (start
preferred); a silent no-op when neither endpoint is pinned.  (The source
selects a nullable anchor and returns when it is null; that anchor
selection is expanded here into the equivalent nested conditional.) -/
def enforceMaxLength (r : Rope) (maxStretchFactor : ℝ) : Rope :=
  if r.getPredictedLength ≤ r.getRestLength * maxStretchFactor then r
  else
    if r.startParticle.isPinned then
      r.scaleToward r.startParticle.predicted
        (r.getRestLength * maxStretchFactor / r.getPredictedLength)
    else if r.endParticle.isPinned then
      r.scaleToward r.endParticle.predicted
        (r.getRestLength * maxStretchFactor / r.getPredictedLength)
    else r

/-- One pass of `Rope.enforceStrictLength`'s inner loop: a stretch-only
full-stiffness projection over the internal distance constraints. -/
def strictPass (r : Rope) : Rope :=
  { r with particles := r.distanceConstraints.foldl (fun ps c =>
      let pA := ps.getD c.indexA default
      let pB := ps.getD c.indexB default
      let delta := pB.predicted.sub pA.predicted
      let distance := delta.length
      if distance ≤ c.restLength ∨ distance < 1e-6 then ps
      else
        let wSum := pA.inverseMass + pB.inverseMass
        if wSum < 1e-6 then ps
        else
          let correction := delta.mul ((distance - c.restLength) / (distance * wSum))
          (ps.set c.indexA
            { pA with predicted := pA.predicted.add (correction.mul pA.inverseMass) }).set c.indexB
            { pB with predicted := pB.predicted.sub (correction.mul pB.inverseMass) }) r.particles }

def enforceStrictLength (r : Rope) (iterations : ℕ) : Rope :=
  strictPass^[iterations] r

end Rope

/-! ### Claims C9 and C4 -/

/-- C9: for a rope in which neither the start nor the end particle is
pinned, `enforceMaxLength` is a no-op for any stretch factor: the rope
(including every particle's predicted position) is returned exactly
unchanged. -/
theorem enforceMaxLength_noop_when_unpinned (r : Rope) (factor : ℝ)
    (hs : ¬ r.startParticle.isPinned) (he : ¬ r.endParticle.isPinned) :
    r.enforceMaxLength factor = r := by
  unfold Rope.enforceMaxLength
  rw [if_neg hs, if_neg he, ite_self]

/-- Witness for C9 on a concrete two-particle rope with free endpoints. -/
theorem enforceMaxLength_noop_when_unpinned_witness :
    Rope.enforceMaxLength
      { particles := [Particle.make 0 0 1, Particle.make 50 0 1],
        distanceConstraints := [⟨0, 1, 1, 1⟩],
        bendingConstraints := [], id := 0, thickness := 3 } 1 =
      { particles := [Particle.make 0 0 1, Particle.make 50 0 1],
        distanceConstraints := [⟨0, 1, 1, 1⟩],
        bendingConstraints := [], id := 0, thickness := 3 } := by
  apply enforceMaxLength_noop_when_unpinned
  · simp [Rope.startParticle, Particle.isPinned, Particle.make]
  · simp [Rope.endParticle, Particle.isPinned, Particle.make]

lemma distanceTo_affine (anchor a b : Vec2) (s : ℝ) (hs : 0 ≤ s) :
    (anchor.add ((a.sub anchor).mul s)).distanceTo (anchor.add ((b.sub anchor).mul s)) =
      s * a.distanceTo b := by
  unfold Vec2.distanceTo Vec2.add Vec2.sub Vec2.mul
  have harg :
      (anchor.x + (b.x - anchor.x) * s - (anchor.x + (a.x - anchor.x) * s)) *
          (anchor.x + (b.x - anchor.x) * s - (anchor.x + (a.x - anchor.x) * s)) +
        (anchor.y + (b.y - anchor.y) * s - (anchor.y + (a.y - anchor.y) * s)) *
          (anchor.y + (b.y - anchor.y) * s - (anchor.y + (a.y - anchor.y) * s)) =
      s ^ 2 * ((b.x - a.x) * (b.x - a.x) + (b.y - a.y) * (b.y - a.y)) := by
    ring
  rw [harg, Real.sqrt_mul (sq_nonneg s), Real.sqrt_sq hs]

lemma polylineLength_map_affine (anchor : Vec2) (s : ℝ) (hs : 0 ≤ s) :
    ∀ pts : List Vec2,
      polylineLength (pts.map (fun v => anchor.add ((v.sub anchor).mul s))) =
        s * polylineLength pts
  | [] => by simp
  | [a] => by simp
  | a :: b :: rest => by
    have ih := polylineLength_map_affine anchor s hs (b :: rest)
    simp only [List.map_cons] at ih ⊢
    rw [polylineLength_cons_cons, polylineLength_cons_cons, ih,
      distanceTo_affine anchor a b s hs]
    ring

lemma affine_fixes_anchor (anchor : Vec2) (s : ℝ) :
    anchor.add ((anchor.sub anchor).mul s) = anchor := by
  cases anchor
  simp [Vec2.add, Vec2.sub, Vec2.mul]

/-- `scaleToward` multiplies the predicted polyline length by the scale
factor, provided every pinned particle already sits at the anchor. -/
lemma scaleToward_getPredictedLength (r : Rope) (anchor : Vec2) (s : ℝ)
    (hs : 0 ≤ s)
    (hkey : ∀ p ∈ r.particles, p.isPinned → p.predicted = anchor) :
    (r.scaleToward anchor s).getPredictedLength = s * r.getPredictedLength := by
  unfold Rope.scaleToward Rope.getPredictedLength
  simp only [List.map_map]
  have hmapped :
      r.particles.map ((·.predicted) ∘ (fun p =>
        if p.isPinned then p
        else { p with predicted := anchor.add ((p.predicted.sub anchor).mul s) })) =
      r.particles.map ((fun v => anchor.add ((v.sub anchor).mul s)) ∘ (·.predicted)) := by
    apply List.map_congr_left
    intro p hp
    by_cases hpin : p.isPinned
    · simp only [Function.comp_apply, if_pos hpin]
      rw [hkey p hp hpin, affine_fixes_anchor]
    · simp only [Function.comp_apply, if_neg hpin]
  rw [hmapped, ← List.map_map]
  exact polylineLength_map_affine anchor s hs (r.particles.map (·.predicted))

/-- Core bound for `enforceMaxLength 1`: if some endpoint is pinned and
every pinned particle sits at the chosen anchor, the resulting predicted
length is at most the rest length. -/
lemma enforceMaxLength_one_length_le (r : Rope)
    (hrest : 0 ≤ r.getRestLength)
    (hanchor : r.startParticle.isPinned ∨ r.endParticle.isPinned)
    (hkey : ∀ p ∈ r.particles, p.isPinned →
      p.predicted = (if r.startParticle.isPinned then r.startParticle.predicted
        else r.endParticle.predicted)) :
    (r.enforceMaxLength 1).getPredictedLength ≤ r.getRestLength := by
  set anchor : Vec2 := if r.startParticle.isPinned then r.startParticle.predicted
    else r.endParticle.predicted with hanchor_def
  by_cases hle : r.getPredictedLength ≤ r.getRestLength * 1
  · unfold Rope.enforceMaxLength
    rw [if_pos hle]
    simpa using hle
  · have hgt : r.getRestLength * 1 < r.getPredictedLength := not_le.mp hle
    rw [mul_one] at hgt
    have hcur : 0 < r.getPredictedLength := lt_of_le_of_lt hrest hgt
    have hres : r.enforceMaxLength 1 =
        r.scaleToward anchor (r.getRestLength * 1 / r.getPredictedLength) := by
      unfold Rope.enforceMaxLength
      rw [if_neg hle]
      rcases hanchor with h | h
      · rw [if_pos h, hanchor_def, if_pos h]
      · by_cases h0 : r.startParticle.isPinned
        · rw [if_pos h0, hanchor_def, if_pos h0]
        · rw [if_neg h0, if_pos h, hanchor_def, if_neg h0]
    rw [hres, scaleToward_getPredictedLength r anchor _ (by positivity) (by
      intro p hp hpin
      rw [hanchor_def]
      exact hkey p hp hpin)]
    rw [mul_one, div_mul_cancel₀ _ (ne_of_gt hcur)]

/-- A pinned member of a particle list whose non-last elements are all
free must be the last element (stated via `getD`, matching the embedding
of `particles[length - 1]`). -/
lemma pinned_mem_eq_getD_last :
    ∀ (l : List Particle) (p : Particle), p ∈ l → p.isPinned →
      (∀ q ∈ l.dropLast, ¬ q.isPinned) → p = l.getD (l.length - 1) default
  | [], p, hp, _, _ => absurd hp (List.not_mem_nil p)
  | [a], p, hp, _, _ => by simpa using hp
  | a :: b :: t2, p, hp, hpin, hfree => by
    have hdl : (a :: b :: t2).dropLast = a :: (b :: t2).dropLast := rfl
    have hfree' : ∀ q ∈ (b :: t2).dropLast, ¬ q.isPinned := by
      intro q hq
      apply hfree
      rw [hdl]
      exact List.mem_cons_of_mem a hq
    have hanot : ¬ a.isPinned := by
      apply hfree
      rw [hdl]
      exact List.mem_cons_self a _
    rcases List.mem_cons.mp hp with rfl | hmem
    · exact absurd hpin hanot
    · have hrec := pinned_mem_eq_getD_last (b :: t2) p hmem hpin hfree'
      have hlen : (a :: b :: t2).length - 1 = ((b :: t2).length - 1) + 1 := by
        simp
      rw [hlen, List.getD_cons_succ]
      exact hrec

/-- With exactly one pinned endpoint (and no other pinned particle), every
pinned particle sits at the anchor `enforceMaxLength` selects. -/
lemma one_pinned_endpoint_key (r : Rope)
    (hpin : (r.startParticle.isPinned ∧ ∀ p ∈ r.particles.tail, ¬ p.isPinned) ∨
            (r.endParticle.isPinned ∧ ∀ p ∈ r.particles.dropLast, ¬ p.isPinned)) :
    ∀ p ∈ r.particles, p.isPinned →
      p.predicted = (if r.startParticle.isPinned then r.startParticle.predicted
        else r.endParticle.predicted) := by
  rcases hpin with ⟨hstart, hfree⟩ | ⟨hend, hfree⟩
  · intro p hp hppin
    rw [if_pos hstart]
    cases hlist : r.particles with
    | nil =>
      rw [hlist] at hp
      exact absurd hp (List.not_mem_nil p)
    | cons p0 rest =>
      rw [hlist] at hp
      rcases List.mem_cons.mp hp with rfl | hmem
      · unfold Rope.startParticle
        rw [hlist]
        rfl
      · exfalso
        apply hfree p _ hppin
        rw [hlist]
        exact hmem
  · intro p hp hppin
    have hlast := pinned_mem_eq_getD_last r.particles p hp hppin hfree
    by_cases hstart : r.startParticle.isPinned
    · rw [if_pos hstart]
      cases hlist : r.particles with
      | nil =>
        rw [hlist] at hp
        exact absurd hp (List.not_mem_nil p)
      | cons a t =>
        cases ht : t with
        | nil =>
          have hpa : p = a := by
            rw [hlist, ht] at hp
            simpa using hp
          subst hpa
          unfold Rope.startParticle
          rw [hlist, ht]
          rfl
        | cons b t2 =>
          exfalso
          rw [hlist, ht] at hfree
          have hsa : r.startParticle = a := by
            unfold Rope.startParticle
            rw [hlist, ht]
            rfl
          apply hfree a _ (hsa ▸ hstart)
          exact List.mem_cons_self a _
    · rw [if_neg hstart, hlast]
      rfl

/-- C4: for a rope with one pinned endpoint (and no other pinned
particle), after `enforceMaxLength(1.0)` the total predicted length is at
most the rest length plus a numerical epsilon; in this exact-arithmetic
embedding the bound holds with epsilon 0, hence for every nonnegative
epsilon.  The rest length is nonnegative for every constructor-built rope;
it appears as a hypothesis because the embedding quantifies over arbitrary
rope states. -/
theorem enforceMaxLength_bounds_predicted_length (r : Rope) (eps : ℝ)
    (heps : 0 ≤ eps) (hrest : 0 ≤ r.getRestLength)
    (hpin : (r.startParticle.isPinned ∧ ∀ p ∈ r.particles.tail, ¬ p.isPinned) ∨
            (r.endParticle.isPinned ∧ ∀ p ∈ r.particles.dropLast, ¬ p.isPinned)) :
    (r.enforceMaxLength 1).getPredictedLength ≤ r.getRestLength + eps := by
  have hanchor : r.startParticle.isPinned ∨ r.endParticle.isPinned := by
    rcases hpin with h | h
    · exact Or.inl h.1
    · exact Or.inr h.1
  have hmain := enforceMaxLength_one_length_le r hrest hanchor
    (one_pinned_endpoint_key r hpin)
  linarith

/-- Witness for C4: a concrete three-particle rope, start pinned, stretched
beyond its rest length. -/
theorem enforceMaxLength_bounds_predicted_length_witness :
    (Rope.enforceMaxLength
      { particles := [(Particle.make 0 0 1).pin, Particle.make 10 0 1, Particle.make 20 0 1],
        distanceConstraints := [⟨0, 1, 1, 1⟩, ⟨1, 2, 1, 1⟩],
        bendingConstraints := [], id := 0, thickness := 3 } 1).getPredictedLength ≤
      (Rope.getRestLength
        { particles := [(Particle.make 0 0 1).pin, Particle.make 10 0 1, Particle.make 20 0 1],
          distanceConstraints := [⟨0, 1, 1, 1⟩, ⟨1, 2, 1, 1⟩],
          bendingConstraints := [], id := 0, thickness := 3 }) + 1 := by
  apply enforceMaxLength_bounds_predicted_length
  · norm_num
  · simp [Rope.getRestLength]
  · left
    constructor
    · simp [Rope.startParticle, Particle.isPinned, Particle.pin, Particle.make]
    · intro p hp
      fin_cases hp <;> simp [Particle.isPinned, Particle.make]


/-! ## TangleConstraint

A tangle constraint holds references to one particle of each of two ropes;
references are modelled as (rope id, index) pairs, and rope references as
rope ids (ids are unique, so id equality models object identity). -/

structure ParticleRef where
  ropeId : ℕ
  index : ℕ
deriving DecidableEq

/-- Look a rope up by id (models following an object reference). -/
def findRope (ropes : List Rope) (rid : ℕ) : Option Rope :=
  ropes.find? (fun r => r.id == rid)

/-- Dereference a particle reference. -/
def getParticleAt (ropes : List Rope) (ref : ParticleRef) : Particle :=
  ((findRope ropes ref.ropeId).getD default).particles.getD ref.index default

/-- Write through a particle reference (the source mutates the shared
object; here the owning rope's array entry is replaced). -/
def setParticleAt (ropes : List Rope) (ref : ParticleRef) (p : Particle) : List Rope :=
  ropes.map (fun r =>
    if r.id = ref.ropeId then { r with particles := r.particles.set ref.index p } else r)

/-- The `options` object of the `TangleConstraint` constructor. -/
structure TangleOptions where
  friction : Option ℝ := none
  stiffness : Option ℝ := none
  maxDistance : Option ℝ := none
  minDistance : Option ℝ := none
  initialWrapAngle : Option ℝ := none

structure TangleConstraint where
  refA : ParticleRef
  refB : ParticleRef
  ropeAId : ℕ
  ropeBId : ℕ
  crossingPoint : Vec2
  baseFriction : ℝ
  stiffness : ℝ
  maxDistance : ℝ
  minDistance : ℝ
  restDistance : ℝ
  wrapAngle : ℝ
  maxWrapAngle : ℝ
  age : ℝ
  tension : ℝ
  isLocked : Bool
  lockThreshold : ℝ
  slackFrames : ℕ
  id : ℕ

namespace TangleConstraint

/-- The `TangleConstraint` constructor: `restDistance` starts at the
particle distance clamped to [minDistance, maxDistance]; the wrap angle is
the given `initialWrapAngle` (or π/6 when absent), NOT clamped. -/
def make (pA pB : Particle) (refA refB : ParticleRef) (ropeAId ropeBId : ℕ)
    (crossingPoint : Vec2) (opts : TangleOptions) (nid : ℕ) : TangleConstraint :=
  let minD := opts.minDistance.getD 2
  let maxD := opts.maxDistance.getD 15
  { refA := refA, refB := refB, ropeAId := ropeAId, ropeBId := ropeBId,
    crossingPoint := crossingPoint,
    baseFriction := opts.friction.getD 0.3,
    stiffness := opts.stiffness.getD 0.9,
    maxDistance := maxD, minDistance := minD,
    restDistance := max minD (min (pA.position.distanceTo pB.position) maxD),
    wrapAngle := opts.initialWrapAngle.getD (Real.pi / 6),
    maxWrapAngle := 2 * Real.pi,
    age := 0, tension := 0, isLocked := false, lockThreshold := 50,
    slackFrames := 0, id := nid }

/-- Capstan equation: effective friction multiplier e^(μθ). -/
def getCapstanFriction (tc : TangleConstraint) : ℝ :=
  Real.exp (tc.baseFriction * tc.wrapAngle)

/-- The branch structure of `updateWrapAngle` on the computed
crossing-quality signal: under tension (> 1) with a good crossing angle
(quality > 0.5) the wrap angle grows, capped at `maxWrapAngle`; when slack
(tension < 0.5) it decays toward the floor π/6; otherwise it is frozen. -/
def wrapAngleStep (tc : TangleConstraint) (crossv : ℝ) : ℝ :=
  if 1 < tc.tension ∧ 0.5 < crossv then
    min tc.maxWrapAngle (tc.wrapAngle + tc.tension * 0.001 * crossv)
  else if tc.tension < 0.5 then
    max (Real.pi / 6) (tc.wrapAngle * 0.995)
  else tc.wrapAngle

/-- The wrap-angle value computed by `updateWrapAngle`: derive the local
rope direction at each tangled particle from its immediate neighbours
(zero vector at chain ends); the quality signal is the absolute 2D cross
product of the two directions.  `indexOf` on the unique particle reference
yields the stored index (or no index when out of range, upon which the
source returns without touching the wrap angle). -/
def newWrapAngle (tc : TangleConstraint) (ropes : List Rope) : ℝ :=
  let ropeA := (findRope ropes tc.ropeAId).getD default
  let ropeB := (findRope ropes tc.ropeBId).getD default
  if tc.refA.index < ropeA.particles.length ∧ tc.refB.index < ropeB.particles.length then
    let dirA :=
      if 0 < tc.refA.index ∧ tc.refA.index < ropeA.particles.length - 1 then
        (((ropeA.particles.getD (tc.refA.index + 1) default).predicted).sub
          ((ropeA.particles.getD (tc.refA.index - 1) default).predicted)).normalize
      else Vec2.zero
    let dirB :=
      if 0 < tc.refB.index ∧ tc.refB.index < ropeB.particles.length - 1 then
        (((ropeB.particles.getD (tc.refB.index + 1) default).predicted).sub
          ((ropeB.particles.getD (tc.refB.index - 1) default).predicted)).normalize
      else Vec2.zero
    tc.wrapAngleStep |dirA.cross dirB|
  else tc.wrapAngle

/-- `updateWrapAngle` writes only the wrap angle. -/
def updateWrapAngle (tc : TangleConstraint) (ropes : List Rope) : TangleConstraint :=
  { tc with wrapAngle := tc.newWrapAngle ropes }

/-- The tightening/locking block of `solve`: under tension, an unlocked
tangle tightens its rest distance (floor-clamped at `minDistance`), grows
its wrap angle, and locks permanently once tension exceeds the lock
threshold. -/
def tightenAndLock (tc : TangleConstraint) : TangleConstraint :=
  if 0 < tc.tension ∧ tc.isLocked = false then
    let tightenRate := 0.02 * tc.tension * min tc.getCapstanFriction 3.0
    let tc1 := { tc with
      restDistance := max tc.minDistance (tc.restDistance - tightenRate),
      wrapAngle := min tc.maxWrapAngle (tc.wrapAngle + tc.tension * 0.001) }
    if tc.lockThreshold < tc.tension then { tc1 with isLocked := true } else tc1
  else tc

/-- `TangleConstraint.solve`: recompute tension, update the wrap angle,
tighten/lock, then apply a friction-damped PBD correction to the two
referenced particles and track the crossing point. -/
def solve (tc : TangleConstraint) (ropes : List Rope) :
    TangleConstraint × List Rope :=
  let pA := getParticleAt ropes tc.refA
  let pB := getParticleAt ropes tc.refB
  let delta := pB.predicted.sub pA.predicted
  let distance := delta.length
  if distance < 1e-6 then (tc, ropes)
  else
    let tc3 := (({ tc with tension := max 0 (distance - tc.restDistance) }).updateWrapAngle
      ropes).tightenAndLock
    if tc3.restDistance < distance ∨ distance < tc3.minDistance then
      let error := if tc3.restDistance < distance then distance - tc3.restDistance
        else distance - tc3.minDistance
      let wSum := pA.inverseMass + pB.inverseMass
      if wSum < 1e-6 then (tc3, ropes)
      else
        let effectiveStiffness := if tc3.isLocked then 1 else tc3.stiffness
        let correction := delta.mul (error * effectiveStiffness / (distance * wSum))
        let frictionFactor := min 0.99 (1 - 1 / tc3.getCapstanFriction)
        let effectiveFriction := if tc3.isLocked then 0.98 else 1 - frictionFactor * 0.5
        let pA2 := { pA with predicted := pA.predicted.add (correction.mul (pA.inverseMass * effectiveFriction)) }
        let pB2 := { pB with predicted := pB.predicted.sub (correction.mul (pB.inverseMass * effectiveFriction)) }
        ({ tc3 with crossingPoint := (pA2.predicted.add pB2.predicted).div 2 },
          setParticleAt (setParticleAt ropes tc.refA pA2) tc.refB pB2)
    else (tc3, ropes)

/-- The final distance test of `shouldBreak`: break distance is
`maxDistance * 1.5` for unlocked tangles and `maxDistance * min(capstan, 3)`
for locked ones, capped overall at `maxDistance * 3`. -/
def breakTest (tc : TangleConstraint) (distance : ℝ) : Bool :=
  let breakDistance0 :=
    if tc.isLocked then tc.maxDistance * min tc.getCapstanFriction 3
    else tc.maxDistance * 1.5
  decide (min breakDistance0 (tc.maxDistance * 3) < distance)

/-- `shouldBreak`: an unlocked, low-wrap, slack tangle accumulates slack
frames and breaks after more than 90 of them; independently any tangle
breaks when the particle distance exceeds the Capstan-scaled break
distance.  The slack-frame counter mutation is part of the result. -/
def shouldBreak (tc : TangleConstraint) (ropes : List Rope) :
    TangleConstraint × Bool :=
  let distance := (getParticleAt ropes tc.refA).position.distanceTo
    (getParticleAt ropes tc.refB).position
  if tc.isLocked = false ∧ tc.wrapAngle < Real.pi / 3 ∧ tc.tension < 0.3 then
    let tc1 := { tc with slackFrames := tc.slackFrames + 1 }
    if 90 < tc1.slackFrames then (tc1, true)
    else (tc1, tc1.breakTest distance)
  else
    let tc1 := { tc with slackFrames := 0 }
    (tc1, tc1.breakTest distance)

/-- The bounds stated by the spec for a tangle's mutable geometry:
rest distance within [minDistance, maxDistance], wrap angle within
[π/6, 2π]. -/
def boundsInv (tc : TangleConstraint) : Prop :=
  tc.minDistance ≤ tc.restDistance ∧ tc.restDistance ≤ tc.maxDistance ∧
  Real.pi / 6 ≤ tc.wrapAngle ∧ tc.wrapAngle ≤ 2 * Real.pi

end TangleConstraint

/-- A concrete locked tangle-constraint state, used as a test input. -/
def lockedTangleExample : TangleConstraint :=
  { refA := ⟨0, 6⟩, refB := ⟨1, 6⟩, ropeAId := 0, ropeBId := 1,
    crossingPoint := Vec2.zero, baseFriction := 0.3, stiffness := 0.9,
    maxDistance := 15, minDistance := 2, restDistance := 5,
    wrapAngle := 1, maxWrapAngle := 2 * Real.pi, age := 0, tension := 60,
    isLocked := true, lockThreshold := 50, slackFrames := 0, id := 0 }

/-- A concrete unlocked in-bounds tangle-constraint state, used as a test
input. -/
def looseTangleExample : TangleConstraint :=
  { lockedTangleExample with isLocked := false, tension := 0 }

/-! ### Claim C3 -/

lemma tightenAndLock_of_locked (tc : TangleConstraint) (h : tc.isLocked = true) :
    tc.tightenAndLock = tc := by
  unfold TangleConstraint.tightenAndLock
  rw [if_neg]
  simp [h]

lemma solve_preserves_isLocked (tc : TangleConstraint) (ropes : List Rope)
    (h : tc.isLocked = true) : ((tc.solve ropes).1).isLocked = true := by
  unfold TangleConstraint.solve
  simp only []
  split
  · exact h
  · rw [tightenAndLock_of_locked _ (by exact h)]
    split
    · split
      · exact h
      · exact h
    · exact h

/-- C3: locking is one-way.  Starting from any locked tangle constraint, no
sequence of further `solve()` calls — with the two ropes and particles in
arbitrary states before each call — ever resets `isLocked`; the list of
rope environments models the other constraints and the integrator moving
the particles arbitrarily between the calls. -/
theorem tangle_isLocked_one_way (tc : TangleConstraint) (envs : List (List Rope))
    (h : tc.isLocked = true) :
    (envs.foldl (fun t env => (t.solve env).1) tc).isLocked = true := by
  induction envs generalizing tc with
  | nil => exact h
  | cons env rest ih =>
    rw [List.foldl_cons]
    exact ih _ (solve_preserves_isLocked tc env h)

/-- Witness for C3: a concrete locked tangle solved in two concrete
environments stays locked. -/
theorem tangle_isLocked_one_way_witness :
    (([([] : List Rope), []]).foldl (fun t env => (t.solve env).1)
      lockedTangleExample).isLocked = true := by
  apply tangle_isLocked_one_way
  rfl

/-! ### Claim C5 -/

lemma wrapAngleStep_bounds (tc : TangleConstraint) (crossv : ℝ)
    (hmax : tc.maxWrapAngle = 2 * Real.pi)
    (hlo : Real.pi / 6 ≤ tc.wrapAngle) (hhi : tc.wrapAngle ≤ 2 * Real.pi) :
    Real.pi / 6 ≤ tc.wrapAngleStep crossv ∧ tc.wrapAngleStep crossv ≤ 2 * Real.pi := by
  have hpi := Real.pi_pos
  unfold TangleConstraint.wrapAngleStep
  split
  · next hcond =>
    obtain ⟨h1, h2⟩ := hcond
    constructor
    · apply le_min
      · rw [hmax]; linarith
      · nlinarith
    · rw [hmax]
      exact min_le_left _ _
  · split
    · constructor
      · exact le_max_left _ _
      · apply max_le
        · linarith
        · nlinarith
    · exact ⟨hlo, hhi⟩

lemma newWrapAngle_bounds (tc : TangleConstraint) (ropes : List Rope)
    (hmax : tc.maxWrapAngle = 2 * Real.pi)
    (hlo : Real.pi / 6 ≤ tc.wrapAngle) (hhi : tc.wrapAngle ≤ 2 * Real.pi) :
    Real.pi / 6 ≤ tc.newWrapAngle ropes ∧ tc.newWrapAngle ropes ≤ 2 * Real.pi := by
  unfold TangleConstraint.newWrapAngle
  simp only []
  split
  · exact wrapAngleStep_bounds tc _ hmax hlo hhi
  · exact ⟨hlo, hhi⟩

lemma tightenAndLock_bounds (tc : TangleConstraint)
    (hmax : tc.maxWrapAngle = 2 * Real.pi) (htension : 0 ≤ tc.tension)
    (hinv : tc.boundsInv) : tc.tightenAndLock.boundsInv := by
  obtain ⟨h1, h2, h3, h4⟩ := hinv
  have hpi := Real.pi_pos
  have hexp : (0:ℝ) < tc.getCapstanFriction := Real.exp_pos _
  have hbounds :
      tc.minDistance ≤ max tc.minDistance
          (tc.restDistance - 0.02 * tc.tension * min tc.getCapstanFriction 3.0) ∧
        max tc.minDistance
          (tc.restDistance - 0.02 * tc.tension * min tc.getCapstanFriction 3.0) ≤
          tc.maxDistance ∧
        Real.pi / 6 ≤ min tc.maxWrapAngle (tc.wrapAngle + tc.tension * 0.001) ∧
        min tc.maxWrapAngle (tc.wrapAngle + tc.tension * 0.001) ≤ 2 * Real.pi := by
    have hrate : 0 ≤ 0.02 * tc.tension * min tc.getCapstanFriction 3.0 := by
      apply mul_nonneg
      · positivity
      · exact le_min (le_of_lt hexp) (by norm_num)
    refine ⟨le_max_left _ _, max_le (le_trans h1 h2) (by linarith), ?_, ?_⟩
    · apply le_min
      · rw [hmax]; linarith
      · nlinarith
    · rw [hmax]
      exact min_le_left _ _
  unfold TangleConstraint.tightenAndLock
  simp only []
  split
  · split
    · exact hbounds
    · exact hbounds
  · exact ⟨h1, h2, h3, h4⟩

lemma solve_preserves_bounds (tc : TangleConstraint) (ropes : List Rope)
    (hinv : tc.boundsInv) (hmax : tc.maxWrapAngle = 2 * Real.pi) :
    ((tc.solve ropes).1).boundsInv := by
  obtain ⟨h1, h2, h3, h4⟩ := hinv
  unfold TangleConstraint.solve
  simp only []
  split
  · exact ⟨h1, h2, h3, h4⟩
  · have hwrap := newWrapAngle_bounds
      { tc with tension := max 0 ((((getParticleAt ropes tc.refB).predicted.sub
          (getParticleAt ropes tc.refA).predicted)).length - tc.restDistance) }
      ropes hmax h3 h4
    have hinv3 : ((({ tc with tension := max 0 ((((getParticleAt ropes tc.refB).predicted.sub
        (getParticleAt ropes tc.refA).predicted)).length -
        tc.restDistance) }).updateWrapAngle ropes).tightenAndLock).boundsInv := by
      apply tightenAndLock_bounds
      · exact hmax
      · exact le_max_left _ _
      · exact ⟨h1, h2, hwrap.1, hwrap.2⟩
    split
    · split
      · exact hinv3
      · exact hinv3
    · exact hinv3

/-- C5 counterexample: `initialWrapAngle` is not clamped by the
constructor, so the option value 0 yields a wrap angle below π/6
immediately after construction — the claim fails for arbitrary
constructor options. -/
theorem tangle_bounds_constructor_counterexample :
    ¬ (TangleConstraint.make default default ⟨0, 6⟩ ⟨1, 6⟩ 0 1 Vec2.zero
        { initialWrapAngle := some 0 } 0).boundsInv := by
  intro h
  have hw := h.2.2.1
  simp only [TangleConstraint.make, Option.getD_some] at hw
  nlinarith [Real.pi_pos]

/-- C5 (amended): the bounds minDistance ≤ restDistance ≤ maxDistance and
π/6 ≤ wrapAngle ≤ 2π hold after construction provided the options satisfy
minDistance ≤ maxDistance and the initial wrap angle, when supplied, lies
within [π/6, 2π]; and for every tangle state satisfying the bounds (with
maxWrapAngle = 2π, as the constructor always sets), any `solve()` call —
including its internal `updateWrapAngle` — preserves them. -/
theorem tangle_bounds_spec :
    (∀ (pA pB : Particle) (refA refB : ParticleRef) (ra rb : ℕ) (cp : Vec2)
        (opts : TangleOptions) (nid : ℕ),
      opts.minDistance.getD 2 ≤ opts.maxDistance.getD 15 →
      (∀ w, opts.initialWrapAngle = some w → Real.pi / 6 ≤ w ∧ w ≤ 2 * Real.pi) →
      (TangleConstraint.make pA pB refA refB ra rb cp opts nid).boundsInv) ∧
    (∀ (tc : TangleConstraint) (ropes : List Rope),
      tc.boundsInv → tc.maxWrapAngle = 2 * Real.pi →
      ((tc.solve ropes).1).boundsInv) := by
  constructor
  · intro pA pB refA refB ra rb cp opts nid hminmax hwrap
    have hpi := Real.pi_pos
    refine ⟨le_max_left _ _, max_le hminmax (min_le_right _ _), ?_, ?_⟩
    · show Real.pi / 6 ≤ opts.initialWrapAngle.getD (Real.pi / 6)
      cases hopt : opts.initialWrapAngle with
      | none => simp
      | some w => simpa using (hwrap w hopt).1
    · show opts.initialWrapAngle.getD (Real.pi / 6) ≤ 2 * Real.pi
      cases hopt : opts.initialWrapAngle with
      | none =>
        simp
        linarith
      | some w => simpa using (hwrap w hopt).2
  · exact solve_preserves_bounds

/-- Witness for C5: the constructor clause at the default options and the
preservation clause at a concrete in-bounds tangle state. -/
theorem tangle_bounds_spec_witness :
    (TangleConstraint.make default default ⟨0, 6⟩ ⟨1, 6⟩ 0 1 Vec2.zero {} 0).boundsInv ∧
    ((TangleConstraint.solve looseTangleExample []).1).boundsInv := by
  constructor
  · apply tangle_bounds_spec.1
    · norm_num
    · intro w hw
      simp at hw
  · apply tangle_bounds_spec.2
    · refine ⟨by norm_num [looseTangleExample, lockedTangleExample],
        by norm_num [looseTangleExample, lockedTangleExample], ?_, ?_⟩
      · show Real.pi / 6 ≤ looseTangleExample.wrapAngle
        have h4 := Real.pi_le_four
        simp only [looseTangleExample, lockedTangleExample]
        nlinarith
      · show looseTangleExample.wrapAngle ≤ 2 * Real.pi
        have h3 := Real.pi_gt_three
        simp only [looseTangleExample, lockedTangleExample]
        nlinarith
    · rfl

/-! ## PhysicsWorld

The world owns the ropes, the active tangle constraints, the tangle
cooldown map and the crossing-detection set.  String keys
"ropeA-ropeB-segA-segB" are modelled as 4-tuples of naturals (the decimal
string encoding of such tuples is injective); callbacks are modelled as
event logs guarded by a registration flag. -/

structure Bounds where
  minX : ℝ
  maxX : ℝ
  minY : ℝ
  maxY : ℝ

/-- One invocation of the `crossingCallback`. -/
structure CrossingEvent where
  ropeAId : ℕ
  ropeBId : ℕ
  segA : ℕ
  segB : ℕ
  sign : ℤ
  point : Vec2

/-- A "ropeA-ropeB-segA-segB" key. -/
abbrev SegPairKey := ℕ × ℕ × ℕ × ℕ

structure PhysicsWorld where
  ropes : List Rope
  gravity : Vec2
  solverIterations : ℕ
  bounds : Option Bounds
  tangleConstraints : List TangleConstraint
  tangleFormationThreshold : ℝ
  tangleTensionThreshold : ℝ
  ropeCollisionRadius : ℝ
  allowFreeCrossing : Bool
  tangleCooldowns : List (SegPairKey × ℕ)
  tangleCooldownFrames : ℕ
  maxTanglesPerRopePair : ℕ
  maxTotalTangles : ℕ
  crossingCallbackSet : Bool
  onTangleFormedSet : Bool
  onTangleBrokenSet : Bool
  currentIntersections : List SegPairKey
  tangleNextId : ℕ
  crossingEvents : List CrossingEvent
  tangleFormedEvents : List ℕ
  tangleBrokenEvents : List ℕ

instance : Inhabited DistanceConstraintData := ⟨⟨0, 0, 0, 1⟩⟩

/-- A rope segment as produced by `getSegments`. -/
structure SegmentData where
  startPos : Vec2
  endPos : Vec2
  index : ℕ
  ropeId : ℕ

namespace Rope

def getSegments (r : Rope) : List SegmentData :=
  (List.range (r.particles.length - 1)).map (fun i =>
    { startPos := (r.particles.getD i default).position,
      endPos := (r.particles.getD (i + 1) default).position,
      index := i, ropeId := r.id })

def applyGravityAll (r : Rope) (gravity : Vec2) : Rope :=
  { r with particles := r.particles.map (fun p => p.applyForce gravity) }

def integrateAll (r : Rope) (dt : ℝ) : Rope :=
  { r with particles := r.particles.map (fun p => p.integrate dt) }

def updatePositionsAll (r : Rope) (dt : ℝ) : Rope :=
  { r with particles := r.particles.map (fun p => p.updatePosition dt) }

/-- One Gauss-Seidel pass over the rope's internal distance constraints
(each solve sees the previous solves' updated predicted positions). -/
def solveDistancePass (r : Rope) : Rope :=
  { r with particles := r.distanceConstraints.foldl (fun ps c =>
      let res := DistanceConstraint.solvePair c.restLength c.stiffness
        (ps.getD c.indexA default) (ps.getD c.indexB default)
      (ps.set c.indexA res.1).set c.indexB res.2) r.particles }

/-- One pass over the rope's bending constraints (only the middle particle
is mutated). -/
def solveBendingPass (r : Rope) : Rope :=
  { r with particles := r.bendingConstraints.foldl (fun ps c =>
      ps.set c.indexB (BendingConstraint.solveMiddle c.restAngle c.stiffness
        (ps.getD c.indexA default) (ps.getD c.indexB default)
        (ps.getD c.indexC default))) r.particles }

/-- Constraint indices stay inside the particle array — true for every
constructor-built rope, where constraints join adjacent particles. -/
def wf (r : Rope) : Prop :=
  ∀ c ∈ r.distanceConstraints, c.indexA < r.particles.length ∧
    c.indexB < r.particles.length

end Rope

/-- Solve all tangle constraints in order (Gauss-Seidel through the shared
particles), incrementing each tangle's age by dt as in the solver loop. -/
def solveTangles (tangles : List TangleConstraint) (ropes : List Rope) (dt : ℝ) :
    List TangleConstraint × List Rope :=
  tangles.foldl (fun acc tc =>
    let res := tc.solve acc.2
    (acc.1 ++ [{ res.1 with age := res.1.age + dt }], res.2)) ([], ropes)

/-- `PhysicsWorld.areTangled`: is this unordered particle pair joined by
some active tangle? -/
def areTangled (tangles : List TangleConstraint) (refA refB : ParticleRef) : Bool :=
  tangles.any (fun t => (t.refA == refA && t.refB == refB) ||
    (t.refA == refB && t.refB == refA))

/-- `PhysicsWorld.closestPointOnSegment` (with its 1e-6 denominator
guard). -/
def closestPointOnSegmentW (point segStart segEnd : Vec2) : Vec2 :=
  let v := segEnd.sub segStart
  let u := point.sub segStart
  let t := max 0 (min 1 (u.dot v / (v.dot v + 1e-6)))
  segStart.add (v.mul t)

/-- `PhysicsWorld.solveRopePairCollision`: push every free particle of
ropeA out of every segment of ropeB (skipping already-tangled pairs),
pushing the segment's particles the opposite way. -/
def solveRopePairCollision (tangles : List TangleConstraint) (radius : ℝ)
    (ropeA ropeB : Rope) : Rope × Rope :=
  let res := (List.range ropeA.particles.length).foldl
    (fun (st : List Particle × List Particle) ia =>
      if (st.1.getD ia default).inverseMass = 0 then st
      else (List.range (ropeB.particles.length - 1)).foldl (fun st2 k =>
        let pA := st2.1.getD ia default
        let p1 := st2.2.getD k default
        let p2 := st2.2.getD (k + 1) default
        if areTangled tangles ⟨ropeA.id, ia⟩ ⟨ropeB.id, k⟩ ||
            areTangled tangles ⟨ropeA.id, ia⟩ ⟨ropeB.id, k + 1⟩ then st2
        else
          let closest := closestPointOnSegmentW pA.predicted p1.predicted p2.predicted
          let distance := pA.predicted.distanceTo closest
          if distance < radius ∧ 0.01 < distance then
            let push := ((pA.predicted.sub closest).normalize).mul ((radius - distance) * 0.5)
            let stA := if 0 < pA.inverseMass then
                st2.1.set ia { pA with predicted := pA.predicted.add push } else st2.1
            let segPush := push.mul (-0.5)
            let stB1 := if 0 < p1.inverseMass then
                st2.2.set k { p1 with predicted := p1.predicted.add segPush } else st2.2
            let stB2 := if 0 < p2.inverseMass then
                stB1.set (k + 1) { p2 with predicted := p2.predicted.add segPush } else stB1
            (stA, stB2)
          else st2) st)
    (ropeA.particles, ropeB.particles)
  ({ ropeA with particles := res.1 }, { ropeB with particles := res.2 })

/-- `PhysicsWorld.solveRopeCollisions`: skipped entirely when free
crossing is enabled. -/
def solveRopeCollisions (w : PhysicsWorld) : PhysicsWorld :=
  if w.allowFreeCrossing then w
  else
    { w with ropes := (List.range w.ropes.length).foldl (fun rs i =>
        (List.range w.ropes.length).foldl (fun rs2 j =>
          if i < j then
            let res := solveRopePairCollision w.tangleConstraints w.ropeCollisionRadius
              (rs2.getD i default) (rs2.getD j default)
            (rs2.set i res.1).set j res.2
          else rs2) rs) w.ropes }

/-- `PhysicsWorld.solveBoundaryConstraints`: clamp free particles'
predicted positions to the bounds (four sequential one-sided clamps). -/
def solveBoundaryConstraints (w : PhysicsWorld) : PhysicsWorld :=
  match w.bounds with
  | none => w
  | some b =>
    { w with ropes := w.ropes.map (fun r => { r with particles := r.particles.map (fun p =>
        if p.inverseMass = 0 then p
        else
          let x1 := if p.predicted.x < b.minX then b.minX else p.predicted.x
          let x2 := if b.maxX < x1 then b.maxX else x1
          let y1 := if p.predicted.y < b.minY then b.minY else p.predicted.y
          let y2 := if b.maxY < y1 then b.maxY else y1
          { p with predicted := ⟨x2, y2⟩ }) }) }

/-- The distance-constraint phase of one solver iteration. -/
def distancePhase (w : PhysicsWorld) : PhysicsWorld :=
  { w with ropes := w.ropes.map Rope.solveDistancePass }

/-- The tangle-constraint phase (solve each tangle and age it by dt). -/
def tanglePhase (dt : ℝ) (w : PhysicsWorld) : PhysicsWorld :=
  { w with tangleConstraints := (solveTangles w.tangleConstraints w.ropes dt).1,
           ropes := (solveTangles w.tangleConstraints w.ropes dt).2 }

/-- The bending phase, run only for the first half of the iteration
budget (`i < solverIterations / 2`, floating-point division). -/
def bendingGate (i : ℕ) (w : PhysicsWorld) : PhysicsWorld :=
  if (i : ℝ) < (w.solverIterations : ℝ) / 2 then
    { w with ropes := w.ropes.map Rope.solveBendingPass }
  else w

/-- One solver iteration: distance → tangle → rope-rope collision →
(first half only) bending → boundary. -/
def solverIterationStep (dt : ℝ) (i : ℕ) (w : PhysicsWorld) : PhysicsWorld :=
  solveBoundaryConstraints (bendingGate i (solveRopeCollisions (tanglePhase dt (distancePhase w))))

/-- Run solver iterations i, i+1, ... while fuel remains (started with
i = 0 and fuel = solverIterations). -/
def solverIterate (dt : ℝ) : ℕ → ℕ → PhysicsWorld → PhysicsWorld
  | _, 0, w => w
  | i, n + 1, w => solverIterate dt (i + 1) n (solverIterationStep dt i w)

/-- `Map` cooldown decrement: entries at 1 (or less) are deleted, the rest
decremented, preserving insertion order. -/
def decrementCooldowns (cds : List (SegPairKey × ℕ)) : List (SegPairKey × ℕ) :=
  cds.filterMap (fun kv => if kv.2 ≤ 1 then none else some (kv.1, kv.2 - 1))

def cooldownHas (cds : List (SegPairKey × ℕ)) (k : SegPairKey) : Bool :=
  cds.any (fun kv => kv.1 == k)

def cooldownSet (cds : List (SegPairKey × ℕ)) (k : SegPairKey) (v : ℕ) :
    List (SegPairKey × ℕ) :=
  if cooldownHas cds k then cds.map (fun kv => if kv.1 == k then (k, v) else kv)
  else cds ++ [(k, v)]

/-- Remove the tangles whose `shouldBreak()` holds (firing
`onTangleBroken` for each), keeping the remaining tangles in order; the
slack-frame mutation done by `shouldBreak` is kept on the survivors. -/
def processBreaks (w : PhysicsWorld) : PhysicsWorld :=
  let checked := w.tangleConstraints.map (fun tc => tc.shouldBreak w.ropes)
  { w with
    tangleConstraints := ((checked.filter (fun tb => tb.2 = false)).map (·.1)),
    tangleBrokenEvents := w.tangleBrokenEvents ++
      (if w.onTangleBrokenSet then
        ((checked.filter (fun tb => tb.2 = true)).map (·.1.id)) else []) }

/-- `PhysicsWorld.countTanglesBetweenRopes`. -/
def countTanglesBetweenRopes (tangles : List TangleConstraint) (ra rb : ℕ) : ℕ :=
  (tangles.filter (fun t => (t.ropeAId == ra && t.ropeBId == rb) ||
    (t.ropeAId == rb && t.ropeBId == ra))).length

/-- `PhysicsWorld.findClosestParticle`, returning the index of the first
strictly-closest particle (models the returned object reference). -/
def findClosestAux (point : Vec2) : List Particle → ℕ → ℕ → ℝ → ℕ
  | [], _, best, _ => best
  | p :: rest, i, best, bestDist =>
    if p.position.distanceTo point < bestDist then
      findClosestAux point rest (i + 1) i (p.position.distanceTo point)
    else findClosestAux point rest (i + 1) best bestDist

def findClosestParticle (r : Rope) (point : Vec2) : ℕ :=
  findClosestAux point r.particles 0 0 (r.particles.headI.position.distanceTo point)

/-- `PhysicsWorld.measureLocalTension`: total stretch beyond rest length
of the one or two distance constraints adjacent to the particle (the
particle reference is an index; the source's `indexOf` recovers it, and
returns 0 tension for a stale reference). -/
def measureLocalTension (r : Rope) (idx : ℕ) : ℝ :=
  if idx < r.particles.length then
    (if 0 < idx then
      let c := r.distanceConstraints.getD (idx - 1) default
      max 0 ((r.particles.getD c.indexA default).position.distanceTo
        (r.particles.getD c.indexB default).position - c.restLength)
    else 0) +
    (if idx < r.distanceConstraints.length then
      let c := r.distanceConstraints.getD idx default
      max 0 ((r.particles.getD c.indexA default).position.distanceTo
        (r.particles.getD c.indexB default).position - c.restLength)
    else 0)
  else 0

/-- The body of `detectRopePairTangles`'s segment-pair loop: cooldown
check, geometric intersection, closest particles, already-tangled check,
minimum 45° crossing angle, per-rope tension ≥ 2, and the combined score
threshold; on success the cooldown is set and a new `TangleConstraint` is
pushed (and `onTangleFormed` fires).  Note the per-pair and global caps
are NOT re-checked here — `detectRopePairTangles` tests them only once at
entry. -/
def tanglePairCheck (w : PhysicsWorld) (ropeA ropeB : Rope)
    (segA segB : SegmentData) : PhysicsWorld :=
  let key : SegPairKey := (ropeA.id, ropeB.id, segA.index, segB.index)
  if cooldownHas w.tangleCooldowns key then w
  else
    match Segment.segmentIntersection segA.startPos segA.endPos segB.startPos segB.endPos with
    | none => w
    | some res =>
      let point := res.1
      let idxA := findClosestParticle ropeA point
      let idxB := findClosestParticle ropeB point
      if areTangled w.tangleConstraints ⟨ropeA.id, idxA⟩ ⟨ropeB.id, idxB⟩ then w
      else
        let crossProduct := |((segA.endPos.sub segA.startPos).normalize).cross
          ((segB.endPos.sub segB.startPos).normalize)|
        let crossingAngle := Real.arcsin (min 1 crossProduct)
        if crossingAngle < Real.pi / 4 then w
        else
          let tensionA := measureLocalTension ropeA idxA
          let tensionB := measureLocalTension ropeB idxB
          if tensionA < 2 ∨ tensionB < 2 then w
          else
            let tangleProbability := (tensionA + tensionB) * crossProduct
            if w.tangleTensionThreshold < tangleProbability then
              { w with
                tangleCooldowns := cooldownSet w.tangleCooldowns key w.tangleCooldownFrames,
                tangleConstraints := w.tangleConstraints ++
                  [TangleConstraint.make
                    (ropeA.particles.getD idxA default) (ropeB.particles.getD idxB default)
                    ⟨ropeA.id, idxA⟩ ⟨ropeB.id, idxB⟩ ropeA.id ropeB.id point
                    { friction := some 0.3,
                      stiffness := some (min 0.95 (0.7 + tangleProbability * 0.02)),
                      initialWrapAngle := some crossingAngle }
                    w.tangleNextId],
                tangleNextId := w.tangleNextId + 1,
                tangleFormedEvents := w.tangleFormedEvents ++
                  (if w.onTangleFormedSet then [w.tangleNextId] else []) }
            else w

/-- `PhysicsWorld.detectRopePairTangles`: the global and per-rope-pair
caps are checked ONCE at entry, then every segment pair (skipping the
first 6 segments of each rope) is scanned, possibly pushing several
tangles in one call. -/
def detectRopePairTangles (w : PhysicsWorld) (ropeA ropeB : Rope) : PhysicsWorld :=
  if w.maxTotalTangles ≤ w.tangleConstraints.length then w
  else if w.maxTanglesPerRopePair ≤
      countTanglesBetweenRopes w.tangleConstraints ropeA.id ropeB.id then w
  else
    ropeA.getSegments.foldl (fun wa segA =>
      if segA.index < 6 then wa
      else ropeB.getSegments.foldl (fun wb segB =>
        if segB.index < 6 then wb
        else tanglePairCheck wb ropeA ropeB segA segB) wa) w

/-- `PhysicsWorld.detectNewTangles`: all rope pairs i < j. -/
def detectNewTangles (w : PhysicsWorld) : PhysicsWorld :=
  (List.range w.ropes.length).foldl (fun wi i =>
    (List.range w.ropes.length).foldl (fun wj j =>
      if i < j then detectRopePairTangles wj (wj.ropes.getD i default)
        (wj.ropes.getD j default)
      else wj) wi) w

/-- `PhysicsWorld.updateTangles`: decrement cooldowns, break stale
tangles, then scan for new ones. -/
def updateTangles (w : PhysicsWorld) : PhysicsWorld :=
  detectNewTangles (processBreaks
    { w with tangleCooldowns := decrementCooldowns w.tangleCooldowns })

/-- `PhysicsWorld.detectRopeCrossings`: recompute the intersecting
segment-pair keys of THIS rope pair; fire the crossing callback only for
keys absent from `currentIntersections`, with the over/under sign from the
interpolated particle heights; then OVERWRITE `currentIntersections` with
this pair's key set (the source does this per rope-pair call, not per
tick). -/
def detectRopeCrossings (w : PhysicsWorld) (ropeA ropeB : Rope) : PhysicsWorld :=
  let res := ropeA.getSegments.foldl
    (fun (acc : List SegPairKey × List CrossingEvent) segA =>
      if segA.index < 6 then acc
      else ropeB.getSegments.foldl (fun acc2 segB =>
        if segB.index < 6 then acc2
        else
          match Segment.segmentIntersection segA.startPos segA.endPos
            segB.startPos segB.endPos with
          | none => acc2
          | some r =>
            let key : SegPairKey := (ropeA.id, ropeB.id, segA.index, segB.index)
            if w.currentIntersections.contains key then (acc2.1 ++ [key], acc2.2)
            else
              let t1 := if r.2.1 = 0 then 0.5 else r.2.1
              let t2 := if r.2.2 = 0 then 0.5 else r.2.2
              let pA1 := ropeA.particles.getD segA.index default
              let pA2 := ropeA.particles.getD (segA.index + 1) default
              let pB1 := ropeB.particles.getD segB.index default
              let pB2 := ropeB.particles.getD (segB.index + 1) default
              let heightA := pA1.height + (pA2.height - pA1.height) * t1
              let heightB := pB1.height + (pB2.height - pB1.height) * t2
              let sign : ℤ := if heightB < heightA then 1 else -1
              (acc2.1 ++ [key], acc2.2 ++
                [{ ropeAId := ropeA.id, ropeBId := ropeB.id,
                   segA := segA.index, segB := segB.index,
                   sign := sign, point := r.1 }])) acc)
    ([], [])
  { w with currentIntersections := res.1,
           crossingEvents := w.crossingEvents ++ res.2 }

/-- `PhysicsWorld.detectCrossings`: nothing happens while no crossing
callback is registered; otherwise every rope pair is scanned in order. -/
def detectCrossings (w : PhysicsWorld) : PhysicsWorld :=
  if w.crossingCallbackSet = false then w
  else (List.range w.ropes.length).foldl (fun wi i =>
    (List.range w.ropes.length).foldl (fun wj j =>
      if i < j then detectRopeCrossings wj (wj.ropes.getD i default)
        (wj.ropes.getD j default)
      else wj) wi) w

/-- The gravity + Verlet integration phase of `step`. -/
def integratePhase (dt : ℝ) (w : PhysicsWorld) : PhysicsWorld :=
  { w with ropes := w.ropes.map (fun r => (r.applyGravityAll w.gravity).integrateAll dt) }

/-- The post-solve hardening phase: strict per-segment enforcement, then
the total max-length clamp. -/
def hardeningPhase (w : PhysicsWorld) : PhysicsWorld :=
  { w with ropes := w.ropes.map (fun r => (r.enforceStrictLength 2).enforceMaxLength 1) }

/-- The position-commit phase. -/
def commitPhase (dt : ℝ) (w : PhysicsWorld) : PhysicsWorld :=
  { w with ropes := w.ropes.map (fun r => r.updatePositionsAll dt) }

/-- `PhysicsWorld.step(dt)`: integrate, run the solver iterations, harden
lengths, commit positions, update the tangle lifecycle, then detect
crossings. -/
def PhysicsWorld.step (w : PhysicsWorld) (dt : ℝ) : PhysicsWorld :=
  let w1 := integratePhase dt w
  let w2 := solverIterate dt 0 w1.solverIterations w1
  detectCrossings (updateTangles (commitPhase dt (hardeningPhase w2)))

/-! ### Identity of the motion phases on a static (all-pinned, at-rest)
world

For worlds whose particles are all pinned with predicted = position, the
integration, solver, hardening and commit phases of `step` change nothing:
every guarded correction either returns early (both endpoints pinned) or
multiplies by a zero inverse mass behind a pinned guard.  These lemmas
let a concrete `step` be evaluated exactly. -/

lemma getD_mem_of_lt {α : Type} [Inhabited α] (l : List α) (i : ℕ)
    (h : i < l.length) : l.getD i default ∈ l := by
  rw [List.getD_eq_getElem l default h]
  exact List.getElem_mem h

lemma set_getD_self {α : Type} [Inhabited α] :
    ∀ (l : List α) (i : ℕ), l.set i (l.getD i default) = l
  | [], _ => rfl
  | a :: t, 0 => rfl
  | a :: t, i + 1 => by
    show a :: t.set i (t.getD i default) = a :: t
    rw [set_getD_self t i]

lemma set_out_of_range {α : Type} :
    ∀ (l : List α) (i : ℕ) (x : α), l.length ≤ i → l.set i x = l
  | [], _, _, _ => rfl
  | a :: t, 0, x, h => by simp at h
  | a :: t, i + 1, x, h => by
    show a :: t.set i x = a :: t
    rw [set_out_of_range t i x (by simpa using h)]

lemma applyForce_pinned (p : Particle) (g : Vec2) (h : p.inverseMass = 0) :
    p.applyForce g = p := by
  simp [Particle.applyForce, h]

lemma integrate_pinned_rest (p : Particle) (dt : ℝ) (h0 : p.inverseMass = 0)
    (hp : p.predicted = p.position) : p.integrate dt = p := by
  unfold Particle.integrate
  rw [if_pos h0]
  cases p
  simp_all

lemma updatePosition_pinned (p : Particle) (dt : ℝ) (h : p.inverseMass = 0) :
    p.updatePosition dt = p := by
  unfold Particle.updatePosition
  rw [if_pos h]

lemma solvePair_pinned (rest st : ℝ) (pA pB : Particle)
    (hA : pA.inverseMass = 0) (hB : pB.inverseMass = 0) :
    DistanceConstraint.solvePair rest st pA pB = (pA, pB) := by
  unfold DistanceConstraint.solvePair
  simp only []
  split
  · rfl
  · rw [if_pos (by rw [hA, hB]; norm_num)]

lemma solveMiddle_pinned (ra st : ℝ) (pA pB pC : Particle)
    (h : pB.inverseMass = 0) :
    BendingConstraint.solveMiddle ra st pA pB pC = pB := by
  unfold BendingConstraint.solveMiddle
  simp only []
  split
  · rfl
  · rw [if_neg (by rw [h]; norm_num)]

lemma distanceFold_id :
    ∀ (cs : List DistanceConstraintData) (ps : List Particle),
      (∀ c ∈ cs, c.indexA < ps.length ∧ c.indexB < ps.length) →
      (∀ p ∈ ps, p.inverseMass = 0) →
      cs.foldl (fun ps c =>
        let res := DistanceConstraint.solvePair c.restLength c.stiffness
          (ps.getD c.indexA default) (ps.getD c.indexB default)
        (ps.set c.indexA res.1).set c.indexB res.2) ps = ps
  | [], _, _, _ => rfl
  | c :: cs, ps, hwf, hpin => by
    have hA : (ps.getD c.indexA default).inverseMass = 0 :=
      hpin _ (getD_mem_of_lt ps c.indexA (hwf c (List.mem_cons_self c cs)).1)
    have hB : (ps.getD c.indexB default).inverseMass = 0 :=
      hpin _ (getD_mem_of_lt ps c.indexB (hwf c (List.mem_cons_self c cs)).2)
    rw [List.foldl_cons]
    simp only [solvePair_pinned c.restLength c.stiffness _ _ hA hB]
    rw [set_getD_self, set_getD_self]
    exact distanceFold_id cs ps (fun d hd => hwf d (List.mem_cons_of_mem c hd)) hpin

lemma solveDistancePass_id (r : Rope) (hwf : r.wf)
    (hpin : ∀ p ∈ r.particles, p.inverseMass = 0) :
    r.solveDistancePass = r := by
  unfold Rope.solveDistancePass
  rw [distanceFold_id r.distanceConstraints r.particles hwf hpin]

lemma bendingFold_id :
    ∀ (cs : List BendingConstraintData) (ps : List Particle),
      (∀ p ∈ ps, p.inverseMass = 0) →
      cs.foldl (fun ps c =>
        ps.set c.indexB (BendingConstraint.solveMiddle c.restAngle c.stiffness
          (ps.getD c.indexA default) (ps.getD c.indexB default)
          (ps.getD c.indexC default))) ps = ps
  | [], _, _ => rfl
  | c :: cs, ps, hpin => by
    rw [List.foldl_cons]
    by_cases hin : c.indexB < ps.length
    · have hB : (ps.getD c.indexB default).inverseMass = 0 :=
        hpin _ (getD_mem_of_lt ps c.indexB hin)
      rw [solveMiddle_pinned _ _ _ _ _ hB, set_getD_self]
      exact bendingFold_id cs ps hpin
    · rw [set_out_of_range ps c.indexB _ (le_of_not_lt hin)]
      exact bendingFold_id cs ps hpin

lemma solveBendingPass_id (r : Rope)
    (hpin : ∀ p ∈ r.particles, p.inverseMass = 0) :
    r.solveBendingPass = r := by
  unfold Rope.solveBendingPass
  rw [bendingFold_id r.bendingConstraints r.particles hpin]

lemma strictFold_id :
    ∀ (cs : List DistanceConstraintData) (ps : List Particle),
      (∀ c ∈ cs, c.indexA < ps.length ∧ c.indexB < ps.length) →
      (∀ p ∈ ps, p.inverseMass = 0) →
      cs.foldl (fun ps c =>
        let pA := ps.getD c.indexA default
        let pB := ps.getD c.indexB default
        let delta := pB.predicted.sub pA.predicted
        let distance := delta.length
        if distance ≤ c.restLength ∨ distance < 1e-6 then ps
        else
          let wSum := pA.inverseMass + pB.inverseMass
          if wSum < 1e-6 then ps
          else
            let correction := delta.mul ((distance - c.restLength) / (distance * wSum))
            (ps.set c.indexA
              { pA with predicted := pA.predicted.add (correction.mul pA.inverseMass) }).set
              c.indexB
              { pB with predicted := pB.predicted.sub (correction.mul pB.inverseMass) }) ps = ps
  | [], _, _, _ => rfl
  | c :: cs, ps, hwf, hpin => by
    have hA : (ps.getD c.indexA default).inverseMass = 0 :=
      hpin _ (getD_mem_of_lt ps c.indexA (hwf c (List.mem_cons_self c cs)).1)
    have hB : (ps.getD c.indexB default).inverseMass = 0 :=
      hpin _ (getD_mem_of_lt ps c.indexB (hwf c (List.mem_cons_self c cs)).2)
    have hrec := strictFold_id cs ps (fun d hd => hwf d (List.mem_cons_of_mem c hd)) hpin
    rw [List.foldl_cons]
    simp only []
    split
    · exact hrec
    · rw [if_pos (by rw [hA, hB]; norm_num)]
      exact hrec

lemma strictPass_id (r : Rope) (hwf : r.wf)
    (hpin : ∀ p ∈ r.particles, p.inverseMass = 0) :
    r.strictPass = r := by
  unfold Rope.strictPass
  rw [strictFold_id r.distanceConstraints r.particles hwf hpin]

lemma enforceStrictLength_id (r : Rope) (n : ℕ) (hwf : r.wf)
    (hpin : ∀ p ∈ r.particles, p.inverseMass = 0) :
    r.enforceStrictLength n = r := by
  unfold Rope.enforceStrictLength
  induction n with
  | zero => rfl
  | succ k ih =>
    rw [Function.iterate_succ_apply, strictPass_id r hwf hpin]
    exact ih

lemma enforceMaxLength_id_pinned (r : Rope) (f : ℝ)
    (hpin : ∀ p ∈ r.particles, p.inverseMass = 0) :
    r.enforceMaxLength f = r := by
  have hscale : ∀ (anchor : Vec2) (s : ℝ), r.scaleToward anchor s = r := by
    intro anchor s
    unfold Rope.scaleToward
    have hmap : r.particles.map (fun p =>
        if p.isPinned then p
        else { p with predicted := anchor.add ((p.predicted.sub anchor).mul s) }) =
        r.particles := by
      conv_rhs => rw [← List.map_id r.particles]
      apply List.map_congr_left
      intro p hp
      rw [if_pos (show p.isPinned from hpin p hp)]
      rfl
    rw [hmap]
  unfold Rope.enforceMaxLength
  split
  · rfl
  · split
    · exact hscale _ _
    · split
      · exact hscale _ _
      · rfl

lemma applyGravityAll_id (r : Rope) (g : Vec2)
    (hpin : ∀ p ∈ r.particles, p.inverseMass = 0) :
    r.applyGravityAll g = r := by
  unfold Rope.applyGravityAll
  have hmap : r.particles.map (fun p => p.applyForce g) = r.particles := by
    conv_rhs => rw [← List.map_id r.particles]
    apply List.map_congr_left
    intro p hp
    exact applyForce_pinned p g (hpin p hp)
  rw [hmap]

lemma integrateAll_id (r : Rope) (dt : ℝ)
    (hpin : ∀ p ∈ r.particles, p.inverseMass = 0 ∧ p.predicted = p.position) :
    r.integrateAll dt = r := by
  unfold Rope.integrateAll
  have hmap : r.particles.map (fun p => p.integrate dt) = r.particles := by
    conv_rhs => rw [← List.map_id r.particles]
    apply List.map_congr_left
    intro p hp
    exact integrate_pinned_rest p dt (hpin p hp).1 (hpin p hp).2
  rw [hmap]

lemma updatePositionsAll_id (r : Rope) (dt : ℝ)
    (hpin : ∀ p ∈ r.particles, p.inverseMass = 0) :
    r.updatePositionsAll dt = r := by
  unfold Rope.updatePositionsAll
  have hmap : r.particles.map (fun p => p.updatePosition dt) = r.particles := by
    conv_rhs => rw [← List.map_id r.particles]
    apply List.map_congr_left
    intro p hp
    exact updatePosition_pinned p dt (hpin p hp)
  rw [hmap]

lemma ropesMap_id (w : PhysicsWorld) (f : Rope → Rope)
    (h : ∀ r ∈ w.ropes, f r = r) :
    { w with ropes := w.ropes.map f } = w := by
  have hmap : w.ropes.map f = w.ropes := by
    conv_rhs => rw [← List.map_id w.ropes]
    exact List.map_congr_left h
  rw [hmap]

/-- The hypotheses under which the motion phases of `step` are identities:
well-formed ropes whose particles are all pinned and at rest, no active
tangles, free crossing enabled, no bounds. -/
def PhysicsWorld.staticWorld (w : PhysicsWorld) : Prop :=
  (∀ r ∈ w.ropes, r.wf ∧ ∀ p ∈ r.particles, p.inverseMass = 0 ∧ p.predicted = p.position) ∧
  w.tangleConstraints = [] ∧ w.allowFreeCrossing = true ∧ w.bounds = none

lemma integratePhase_id (dt : ℝ) (w : PhysicsWorld) (h : w.staticWorld) :
    integratePhase dt w = w := by
  unfold integratePhase
  apply ropesMap_id
  intro r hr
  rw [applyGravityAll_id r w.gravity (fun p hp => ((h.1 r hr).2 p hp).1)]
  exact integrateAll_id r dt (h.1 r hr).2

lemma distancePhase_id (w : PhysicsWorld) (h : w.staticWorld) :
    distancePhase w = w := by
  unfold distancePhase
  apply ropesMap_id
  intro r hr
  exact solveDistancePass_id r (h.1 r hr).1 (fun p hp => ((h.1 r hr).2 p hp).1)

lemma tanglePhase_id (dt : ℝ) (w : PhysicsWorld) (h : w.tangleConstraints = []) :
    tanglePhase dt w = w := by
  unfold tanglePhase
  rw [h]
  show { w with tangleConstraints := [], ropes := w.ropes } = w
  rw [← h]

lemma solveRopeCollisions_id (w : PhysicsWorld) (h : w.allowFreeCrossing = true) :
    solveRopeCollisions w = w := by
  simp [solveRopeCollisions, h]

lemma bendingGate_id (i : ℕ) (w : PhysicsWorld) (h : w.staticWorld) :
    bendingGate i w = w := by
  unfold bendingGate
  split
  · apply ropesMap_id
    intro r hr
    exact solveBendingPass_id r (fun p hp => ((h.1 r hr).2 p hp).1)
  · rfl

lemma solveBoundaryConstraints_id (w : PhysicsWorld) (h : w.bounds = none) :
    solveBoundaryConstraints w = w := by
  unfold solveBoundaryConstraints
  rw [h]

lemma solverIterationStep_id (dt : ℝ) (i : ℕ) (w : PhysicsWorld)
    (h : w.staticWorld) : solverIterationStep dt i w = w := by
  unfold solverIterationStep
  rw [distancePhase_id w h, tanglePhase_id dt w h.2.1,
    solveRopeCollisions_id w h.2.2.1, bendingGate_id i w h,
    solveBoundaryConstraints_id w h.2.2.2]

lemma solverIterate_id (dt : ℝ) :
    ∀ (n i : ℕ) (w : PhysicsWorld), w.staticWorld → solverIterate dt i n w = w
  | 0, _, _, _ => rfl
  | n + 1, i, w, h => by
    rw [solverIterate, solverIterationStep_id dt i w h]
    exact solverIterate_id dt n (i + 1) w h

lemma hardeningPhase_id (w : PhysicsWorld) (h : w.staticWorld) :
    hardeningPhase w = w := by
  unfold hardeningPhase
  apply ropesMap_id
  intro r hr
  rw [enforceStrictLength_id r 2 (h.1 r hr).1 (fun p hp => ((h.1 r hr).2 p hp).1)]
  exact enforceMaxLength_id_pinned r 1 (fun p hp => ((h.1 r hr).2 p hp).1)

lemma commitPhase_id (dt : ℝ) (w : PhysicsWorld) (h : w.staticWorld) :
    commitPhase dt w = w := by
  unfold commitPhase
  apply ropesMap_id
  intro r hr
  exact updatePositionsAll_id r dt (fun p hp => ((h.1 r hr).2 p hp).1)

/-- On a static world, `step` reduces to the tangle lifecycle update
followed by crossing detection. -/
lemma step_static (w : PhysicsWorld) (dt : ℝ) (h : w.staticWorld) :
    w.step dt = detectCrossings (updateTangles w) := by
  unfold PhysicsWorld.step
  simp only []
  rw [integratePhase_id dt w h, solverIterate_id dt w.solverIterations 0 w h,
    hardeningPhase_id w h, commitPhase_id dt w h]

/-! ### Exact-evaluation helpers for concrete runs -/

lemma distSq_nonneg (a b : Vec2) :
    0 ≤ (b.x - a.x) * (b.x - a.x) + (b.y - a.y) * (b.y - a.y) := by
  have h1 := mul_self_nonneg (b.x - a.x)
  have h2 := mul_self_nonneg (b.y - a.y)
  linarith

lemma distanceTo_lt_iff (a b c d : Vec2) :
    a.distanceTo b < c.distanceTo d ↔
      (b.x - a.x) * (b.x - a.x) + (b.y - a.y) * (b.y - a.y) <
        (d.x - c.x) * (d.x - c.x) + (d.y - c.y) * (d.y - c.y) := by
  unfold Vec2.distanceTo
  exact Real.sqrt_lt_sqrt_iff (distSq_nonneg a b)

lemma distanceTo_expand (x1 y1 x2 y2 : ℝ) :
    Vec2.distanceTo ⟨x1, y1⟩ ⟨x2, y2⟩ =
      Real.sqrt ((x2 - x1) * (x2 - x1) + (y2 - y1) * (y2 - y1)) := rfl

lemma sqrt_hundred : Real.sqrt (100 : ℝ) = 10 := by
  rw [show (100 : ℝ) = 10 * 10 by norm_num, Real.sqrt_mul_self (by norm_num)]

lemma length_eq_of_sq (a : Vec2) (d : ℝ) (hd : 0 ≤ d)
    (h : a.x * a.x + a.y * a.y = d * d) : a.length = d := by
  unfold Vec2.length Vec2.lengthSq
  rw [h, Real.sqrt_mul_self hd]

lemma normalize_eval (x y d : ℝ) (hd : 0 < d) (h : x * x + y * y = d * d) :
    Vec2.normalize ⟨x, y⟩ = ⟨x / d, y / d⟩ := by
  unfold Vec2.normalize
  rw [length_eq_of_sq ⟨x, y⟩ d (le_of_lt hd) h]
  rw [if_neg (ne_of_gt hd)]
  unfold Vec2.div
  rw [if_neg (ne_of_gt hd)]

@[simp] lemma make_refA (pA pB : Particle) (refA refB : ParticleRef)
    (ra rb : ℕ) (cp : Vec2) (opts : TangleOptions) (nid : ℕ) :
    (TangleConstraint.make pA pB refA refB ra rb cp opts nid).refA = refA := rfl

@[simp] lemma make_refB (pA pB : Particle) (refA refB : ParticleRef)
    (ra rb : ℕ) (cp : Vec2) (opts : TangleOptions) (nid : ℕ) :
    (TangleConstraint.make pA pB refA refB ra rb cp opts nid).refB = refB := rfl

@[simp] lemma make_ropeAId (pA pB : Particle) (refA refB : ParticleRef)
    (ra rb : ℕ) (cp : Vec2) (opts : TangleOptions) (nid : ℕ) :
    (TangleConstraint.make pA pB refA refB ra rb cp opts nid).ropeAId = ra := rfl

@[simp] lemma make_ropeBId (pA pB : Particle) (refA refB : ParticleRef)
    (ra rb : ℕ) (cp : Vec2) (opts : TangleOptions) (nid : ℕ) :
    (TangleConstraint.make pA pB refA refB ra rb cp opts nid).ropeBId = rb := rfl

/-! ### Concrete worlds exercising the tangle caps and crossing dedup

All particles are pinned (public `Particle.pin`) and at rest
(`teleport`ed into place), so `step`'s motion phases are exact
identities and only the detection passes act. -/

/-- A pinned particle at rest at (x, y): a constructed particle after
`pin()` and `teleport(x, y)`. -/
def pinnedParticleAt (x y : ℝ) : Particle :=
  { position := ⟨x, y⟩, prevPosition := ⟨x, y⟩, velocity := Vec2.zero,
    inverseMass := 0, mass := 0.1, predicted := ⟨x, y⟩,
    acceleration := Vec2.zero, damping := 0.02, height := 0 }

/-- Rest angle of a bending constraint created on a straight chain (the
concrete value is never read in the runs below: all middles are pinned). -/
def straightRestAngle : ℝ := calculateAngle ⟨0, 0⟩ ⟨1, 0⟩ ⟨2, 0⟩

/-- Horizontal rope (id 0) for the cap-violation run: 10 particles on
y = 0 spaced 10 apart, each adjacent constraint at rest length 1 — every
interior particle carries local tension 18. -/
def ropeA1 : Rope :=
  { particles := [pinnedParticleAt 0 0, pinnedParticleAt 10 0, pinnedParticleAt 20 0,
      pinnedParticleAt 30 0, pinnedParticleAt 40 0, pinnedParticleAt 50 0,
      pinnedParticleAt 60 0, pinnedParticleAt 70 0, pinnedParticleAt 80 0,
      pinnedParticleAt 90 0],
    distanceConstraints := [⟨0, 1, 1, 1⟩, ⟨1, 2, 1, 1⟩, ⟨2, 3, 1, 1⟩, ⟨3, 4, 1, 1⟩,
      ⟨4, 5, 1, 1⟩, ⟨5, 6, 1, 1⟩, ⟨6, 7, 1, 1⟩, ⟨7, 8, 1, 1⟩, ⟨8, 9, 1, 1⟩],
    bendingConstraints := (List.range 8).map (fun i =>
      ⟨i, i + 1, i + 2, straightRestAngle, 0.3⟩),
    id := 0, thickness := 3 }

/-- Zig-zag rope (id 1): its segments 6, 8 and 10 are vertical and cross
ropeA1's segments 6, 7 and 8 at right angles at x = 63, 73, 83. -/
def ropeB1 : Rope :=
  { particles := [pinnedParticleAt 3 5, pinnedParticleAt 13 5, pinnedParticleAt 23 5,
      pinnedParticleAt 33 5, pinnedParticleAt 43 5, pinnedParticleAt 53 5,
      pinnedParticleAt 63 5, pinnedParticleAt 63 (-5), pinnedParticleAt 73 (-5),
      pinnedParticleAt 73 5, pinnedParticleAt 83 5, pinnedParticleAt 83 (-5)],
    distanceConstraints := [⟨0, 1, 1, 1⟩, ⟨1, 2, 1, 1⟩, ⟨2, 3, 1, 1⟩, ⟨3, 4, 1, 1⟩,
      ⟨4, 5, 1, 1⟩, ⟨5, 6, 1, 1⟩, ⟨6, 7, 1, 1⟩, ⟨7, 8, 1, 1⟩, ⟨8, 9, 1, 1⟩,
      ⟨9, 10, 1, 1⟩, ⟨10, 11, 1, 1⟩],
    bendingConstraints := (List.range 10).map (fun i =>
      ⟨i, i + 1, i + 2, straightRestAngle, 0.3⟩),
    id := 1, thickness := 3 }

/-- The cap-violation world: two stretched ropes crossing three times
beyond the skipped lead-in segments, no cooldowns, no tangles yet. -/
def worldC1 : PhysicsWorld :=
  { ropes := [ropeA1, ropeB1], gravity := ⟨0, 0⟩, solverIterations := 8,
    bounds := none, tangleConstraints := [], tangleFormationThreshold := 8,
    tangleTensionThreshold := 25, ropeCollisionRadius := 1.5,
    allowFreeCrossing := true, tangleCooldowns := [], tangleCooldownFrames := 120,
    maxTanglesPerRopePair := 2, maxTotalTangles := 6,
    crossingCallbackSet := false, onTangleFormedSet := false,
    onTangleBrokenSet := false, currentIntersections := [], tangleNextId := 0,
    crossingEvents := [], tangleFormedEvents := [], tangleBrokenEvents := [] }

/-- Horizontal rope (id 0) at rest for the crossing-dedup run: 8
particles on y = 0 spaced 10 apart, rest length 10 (no tension). -/
def ropeA2 : Rope :=
  { particles := [pinnedParticleAt 0 0, pinnedParticleAt 10 0, pinnedParticleAt 20 0,
      pinnedParticleAt 30 0, pinnedParticleAt 40 0, pinnedParticleAt 50 0,
      pinnedParticleAt 60 0, pinnedParticleAt 70 0],
    distanceConstraints := [⟨0, 1, 10, 1⟩, ⟨1, 2, 10, 1⟩, ⟨2, 3, 10, 1⟩,
      ⟨3, 4, 10, 1⟩, ⟨4, 5, 10, 1⟩, ⟨5, 6, 10, 1⟩, ⟨6, 7, 10, 1⟩],
    bendingConstraints := (List.range 6).map (fun i =>
      ⟨i, i + 1, i + 2, straightRestAngle, 0.3⟩),
    id := 0, thickness := 3 }

/-- Vertical rope (id 1) at rest: its segment 6 permanently crosses
ropeA2's segment 6 at (63, 0). -/
def ropeB2 : Rope :=
  { particles := [pinnedParticleAt 63 65, pinnedParticleAt 63 55, pinnedParticleAt 63 45,
      pinnedParticleAt 63 35, pinnedParticleAt 63 25, pinnedParticleAt 63 15,
      pinnedParticleAt 63 5, pinnedParticleAt 63 (-5)],
    distanceConstraints := [⟨0, 1, 10, 1⟩, ⟨1, 2, 10, 1⟩, ⟨2, 3, 10, 1⟩,
      ⟨3, 4, 10, 1⟩, ⟨4, 5, 10, 1⟩, ⟨5, 6, 10, 1⟩, ⟨6, 7, 10, 1⟩],
    bendingConstraints := (List.range 6).map (fun i =>
      ⟨i, i + 1, i + 2, straightRestAngle, 0.3⟩),
    id := 1, thickness := 3 }

/-- A far-away third rope (id 2) whose 6 segments are all inside the
skipped lead-in range; its mere presence makes `detectRopeCrossings`
clobber the previous-tick intersection set after the A-B pair runs. -/
def ropeC2 : Rope :=
  { particles := [pinnedParticleAt 0 1000, pinnedParticleAt 10 1000,
      pinnedParticleAt 20 1000, pinnedParticleAt 30 1000, pinnedParticleAt 40 1000,
      pinnedParticleAt 50 1000, pinnedParticleAt 60 1000],
    distanceConstraints := [⟨0, 1, 10, 1⟩, ⟨1, 2, 10, 1⟩, ⟨2, 3, 10, 1⟩,
      ⟨3, 4, 10, 1⟩, ⟨4, 5, 10, 1⟩, ⟨5, 6, 10, 1⟩],
    bendingConstraints := (List.range 5).map (fun i =>
      ⟨i, i + 1, i + 2, straightRestAngle, 0.3⟩),
    id := 2, thickness := 3 }

/-- The crossing-dedup world: three resting ropes, a registered crossing
callback, and one persistent A-B intersection at segment pair (6, 6). -/
def worldC2 : PhysicsWorld :=
  { ropes := [ropeA2, ropeB2, ropeC2], gravity := ⟨0, 0⟩, solverIterations := 8,
    bounds := none, tangleConstraints := [], tangleFormationThreshold := 8,
    tangleTensionThreshold := 25, ropeCollisionRadius := 1.5,
    allowFreeCrossing := true, tangleCooldowns := [], tangleCooldownFrames := 120,
    maxTanglesPerRopePair := 2, maxTotalTangles := 6,
    crossingCallbackSet := true, onTangleFormedSet := false,
    onTangleBrokenSet := false, currentIntersections := [], tangleNextId := 0,
    crossingEvents := [], tangleFormedEvents := [], tangleBrokenEvents := [] }

lemma ropeA1_wf : ropeA1.wf := by
  unfold Rope.wf ropeA1
  decide

lemma ropeB1_wf : ropeB1.wf := by
  unfold Rope.wf ropeB1
  decide

lemma ropeA2_wf : ropeA2.wf := by
  unfold Rope.wf ropeA2
  decide

lemma ropeB2_wf : ropeB2.wf := by
  unfold Rope.wf ropeB2
  decide

lemma ropeC2_wf : ropeC2.wf := by
  unfold Rope.wf ropeC2
  decide

lemma ropeA1_rest : ∀ p ∈ ropeA1.particles, p.inverseMass = 0 ∧ p.predicted = p.position := by
  intro p hp
  have hp2 : p ∈ [pinnedParticleAt 0 0, pinnedParticleAt 10 0, pinnedParticleAt 20 0,
      pinnedParticleAt 30 0, pinnedParticleAt 40 0, pinnedParticleAt 50 0,
      pinnedParticleAt 60 0, pinnedParticleAt 70 0, pinnedParticleAt 80 0,
      pinnedParticleAt 90 0] := hp
  fin_cases hp2 <;> exact ⟨rfl, rfl⟩

lemma ropeB1_rest : ∀ p ∈ ropeB1.particles, p.inverseMass = 0 ∧ p.predicted = p.position := by
  intro p hp
  have hp2 : p ∈ [pinnedParticleAt 3 5, pinnedParticleAt 13 5, pinnedParticleAt 23 5,
      pinnedParticleAt 33 5, pinnedParticleAt 43 5, pinnedParticleAt 53 5,
      pinnedParticleAt 63 5, pinnedParticleAt 63 (-5), pinnedParticleAt 73 (-5),
      pinnedParticleAt 73 5, pinnedParticleAt 83 5, pinnedParticleAt 83 (-5)] := hp
  fin_cases hp2 <;> exact ⟨rfl, rfl⟩

lemma ropeA2_rest : ∀ p ∈ ropeA2.particles, p.inverseMass = 0 ∧ p.predicted = p.position := by
  intro p hp
  have hp2 : p ∈ [pinnedParticleAt 0 0, pinnedParticleAt 10 0, pinnedParticleAt 20 0,
      pinnedParticleAt 30 0, pinnedParticleAt 40 0, pinnedParticleAt 50 0,
      pinnedParticleAt 60 0, pinnedParticleAt 70 0] := hp
  fin_cases hp2 <;> exact ⟨rfl, rfl⟩

lemma ropeB2_rest : ∀ p ∈ ropeB2.particles, p.inverseMass = 0 ∧ p.predicted = p.position := by
  intro p hp
  have hp2 : p ∈ [pinnedParticleAt 63 65, pinnedParticleAt 63 55, pinnedParticleAt 63 45,
      pinnedParticleAt 63 35, pinnedParticleAt 63 25, pinnedParticleAt 63 15,
      pinnedParticleAt 63 5, pinnedParticleAt 63 (-5)] := hp
  fin_cases hp2 <;> exact ⟨rfl, rfl⟩

lemma ropeC2_rest : ∀ p ∈ ropeC2.particles, p.inverseMass = 0 ∧ p.predicted = p.position := by
  intro p hp
  have hp2 : p ∈ [pinnedParticleAt 0 1000, pinnedParticleAt 10 1000,
      pinnedParticleAt 20 1000, pinnedParticleAt 30 1000, pinnedParticleAt 40 1000,
      pinnedParticleAt 50 1000, pinnedParticleAt 60 1000] := hp
  fin_cases hp2 <;> exact ⟨rfl, rfl⟩

lemma worldC1_static : worldC1.staticWorld := by
  refine ⟨?_, rfl, rfl, rfl⟩
  intro r hr
  have hr2 : r ∈ [ropeA1, ropeB1] := hr
  fin_cases hr2
  · exact ⟨ropeA1_wf, ropeA1_rest⟩
  · exact ⟨ropeB1_wf, ropeB1_rest⟩

lemma worldC2_static : worldC2.staticWorld := by
  refine ⟨?_, rfl, rfl, rfl⟩
  intro r hr
  have hr2 : r ∈ [ropeA2, ropeB2, ropeC2] := hr
  fin_cases hr2
  · exact ⟨ropeA2_wf, ropeA2_rest⟩
  · exact ⟨ropeB2_wf, ropeB2_rest⟩
  · exact ⟨ropeC2_wf, ropeC2_rest⟩

/-! ### Concrete runs of `step`: the tangle-cap (C1) and crossing-dedup (C2)
counterexamples

The worlds are static (all particles pinned and at rest), so `step_static`
reduces `step` to tangle bookkeeping plus crossing detection, which is then
evaluated pair by pair. -/

set_option maxHeartbeats 1000000 in
lemma form1_worldC1 :
    ∃ t : TangleConstraint,
      tanglePairCheck worldC1 ropeA1 ropeB1 ⟨⟨60, 0⟩, ⟨70, 0⟩, 6, 0⟩ ⟨⟨63, 5⟩, ⟨63, -5⟩, 6, 1⟩ =
        { worldC1 with
          tangleCooldowns := [((0, 1, 6, 6), 120)],
          tangleConstraints := [t],
          tangleNextId := 1 } ∧
      t.refA = ⟨0, 6⟩ ∧ t.refB = ⟨1, 6⟩ ∧ t.ropeAId = 0 ∧ t.ropeBId = 1 := by
  have hseg : Segment.segmentIntersection ⟨60, 0⟩ ⟨70, 0⟩ ⟨63, 5⟩ ⟨63, -5⟩ =
      some (⟨63, 0⟩, 3/10, 1/2) := by
    norm_num [Segment.segmentIntersection, Vec2.sub, Vec2.cross, Vec2.add, Vec2.mul]
  have hfA : findClosestParticle ropeA1 ⟨63, 0⟩ = 6 := by
    norm_num [findClosestParticle, findClosestAux, ropeA1, pinnedParticleAt,
      List.headI, distanceTo_lt_iff]
  have hfB : findClosestParticle ropeB1 ⟨63, 0⟩ = 6 := by
    norm_num [findClosestParticle, findClosestAux, ropeB1, pinnedParticleAt,
      List.headI, distanceTo_lt_iff]
  have htA : measureLocalTension ropeA1 6 = 18 := by
    norm_num [measureLocalTension, ropeA1, pinnedParticleAt, distanceTo_expand,
      sqrt_hundred, List.getD]
  have htB : measureLocalTension ropeB1 6 = 18 := by
    norm_num [measureLocalTension, ropeB1, pinnedParticleAt, distanceTo_expand,
      sqrt_hundred, List.getD]
  have hn1 : Vec2.normalize ⟨(10:ℝ), 0⟩ = ⟨1, 0⟩ := by
    rw [normalize_eval 10 0 10 (by norm_num) (by norm_num)]
    norm_num
  have hn2 : Vec2.normalize ⟨(0:ℝ), -10⟩ = ⟨0, -1⟩ := by
    rw [normalize_eval 0 (-10) 10 (by norm_num) (by norm_num)]
    norm_num
  have hpiq : ¬ (Real.pi / 2 < Real.pi / 4) := by linarith [Real.pi_pos]
  have hw1 : worldC1.tangleTensionThreshold = 25 := rfl
  have hw2 : worldC1.tangleCooldowns = [] := rfl
  have hw3 : worldC1.tangleConstraints = [] := rfl
  have hw4 : worldC1.onTangleFormedSet = false := rfl
  have hw5 : worldC1.tangleCooldownFrames = 120 := rfl
  have hw6 : worldC1.tangleNextId = 0 := rfl
  have hid1 : ropeA1.id = 0 := rfl
  have hid2 : ropeB1.id = 1 := rfl
  have hgA : ropeA1.particles.getD 6 default = pinnedParticleAt 60 0 := rfl
  have hgB : ropeB1.particles.getD 6 default = pinnedParticleAt 63 5 := rfl
  unfold tanglePairCheck
  simp only [hid1, hid2, hw2, hw3, hseg, hfA, hfB, htA, htB, hw1, hw4, hw5, hw6,
    hgA, hgB]
  norm_num [cooldownHas, areTangled, Vec2.sub, Vec2.cross, hn1, hn2,
    Real.arcsin_one, hpiq, cooldownSet]

lemma tanglePairCheck_skip (w : PhysicsWorld) (ropeA ropeB : Rope) (segA segB : SegmentData)
    (hck : cooldownHas w.tangleCooldowns (ropeA.id, ropeB.id, segA.index, segB.index) = false)
    (hseg : Segment.segmentIntersection segA.startPos segA.endPos
      segB.startPos segB.endPos = none) :
    tanglePairCheck w ropeA ropeB segA segB = w := by
  unfold tanglePairCheck
  simp [hck, hseg]


set_option maxHeartbeats 1000000 in
lemma form2_worldC1 (t1 : TangleConstraint) (ht1a : t1.refA = ⟨0, 6⟩)
    (ht1b : t1.refB = ⟨1, 6⟩) :
    ∃ t : TangleConstraint,
      tanglePairCheck { worldC1 with tangleCooldowns := [((0, 1, 6, 6), 120)], tangleConstraints := [t1], tangleNextId := 1 } ropeA1 ropeB1 ⟨⟨70, 0⟩, ⟨80, 0⟩, 7, 0⟩ ⟨⟨73, -5⟩, ⟨73, 5⟩, 8, 1⟩ =
        { worldC1 with tangleCooldowns := [((0, 1, 6, 6), 120), ((0, 1, 7, 8), 120)], tangleConstraints := [t1, t], tangleNextId := 2 } ∧
      t.refA = ⟨0, 7⟩ ∧ t.refB = ⟨1, 8⟩ ∧ t.ropeAId = 0 ∧ t.ropeBId = 1 := by
  have hseg : Segment.segmentIntersection ⟨70, 0⟩ ⟨80, 0⟩ ⟨73, -5⟩ ⟨73, 5⟩ =
      some (⟨73, 0⟩, 3/10, 1/2) := by
    norm_num [Segment.segmentIntersection, Vec2.sub, Vec2.cross, Vec2.add, Vec2.mul]
  have hfA : findClosestParticle ropeA1 ⟨73, 0⟩ = 7 := by
    norm_num [findClosestParticle, findClosestAux, ropeA1, pinnedParticleAt,
      List.headI, distanceTo_lt_iff]
  have hfB : findClosestParticle ropeB1 ⟨73, 0⟩ = 8 := by
    norm_num [findClosestParticle, findClosestAux, ropeB1, pinnedParticleAt,
      List.headI, distanceTo_lt_iff]
  have htA : measureLocalTension ropeA1 7 = 18 := by
    norm_num [measureLocalTension, ropeA1, pinnedParticleAt, distanceTo_expand,
      sqrt_hundred, List.getD]
  have htB : measureLocalTension ropeB1 8 = 18 := by
    norm_num [measureLocalTension, ropeB1, pinnedParticleAt, distanceTo_expand,
      sqrt_hundred, List.getD]
  have hn1 : Vec2.normalize ⟨(10:ℝ), 0⟩ = ⟨1, 0⟩ := by
    rw [normalize_eval 10 0 10 (by norm_num) (by norm_num)]
    norm_num
  have hn3 : Vec2.normalize ⟨(0:ℝ), 10⟩ = ⟨0, 1⟩ := by
    rw [normalize_eval 0 10 10 (by norm_num) (by norm_num)]
    norm_num
  have hpiq : ¬ (Real.pi / 2 < Real.pi / 4) := by linarith [Real.pi_pos]
  have hat : areTangled [t1] ⟨0, 7⟩ ⟨1, 8⟩ = false := by
    simp only [areTangled, List.any_cons, List.any_nil, ht1a, ht1b]
    decide
  have hw1 : ({ worldC1 with tangleCooldowns := [((0, 1, 6, 6), 120)], tangleConstraints := [t1], tangleNextId := 1 } : PhysicsWorld).tangleTensionThreshold = 25 := rfl
  have hw2 : ({ worldC1 with tangleCooldowns := [((0, 1, 6, 6), 120)], tangleConstraints := [t1], tangleNextId := 1 } : PhysicsWorld).tangleCooldowns = [((0, 1, 6, 6), 120)] := rfl
  have hw3 : ({ worldC1 with tangleCooldowns := [((0, 1, 6, 6), 120)], tangleConstraints := [t1], tangleNextId := 1 } : PhysicsWorld).tangleConstraints = [t1] := rfl
  have hw4 : ({ worldC1 with tangleCooldowns := [((0, 1, 6, 6), 120)], tangleConstraints := [t1], tangleNextId := 1 } : PhysicsWorld).onTangleFormedSet = false := rfl
  have hw5 : ({ worldC1 with tangleCooldowns := [((0, 1, 6, 6), 120)], tangleConstraints := [t1], tangleNextId := 1 } : PhysicsWorld).tangleCooldownFrames = 120 := rfl
  have hw6 : ({ worldC1 with tangleCooldowns := [((0, 1, 6, 6), 120)], tangleConstraints := [t1], tangleNextId := 1 } : PhysicsWorld).tangleNextId = 1 := rfl
  have hv1 : worldC1.tangleTensionThreshold = 25 := rfl
  have hv4 : worldC1.onTangleFormedSet = false := rfl
  have hv5 : worldC1.tangleCooldownFrames = 120 := rfl
  have hid1 : ropeA1.id = 0 := rfl
  have hid2 : ropeB1.id = 1 := rfl
  have hgA : ropeA1.particles.getD 7 default = pinnedParticleAt 70 0 := rfl
  have hgB : ropeB1.particles.getD 8 default = pinnedParticleAt 73 (-5) := rfl
  unfold tanglePairCheck
  simp only [hid1, hid2, hw2, hw3, hseg, hfA, hfB, htA, htB, hw1, hw4, hw5, hw6,
    hv1, hv4, hv5, hgA, hgB, hat]
  norm_num [cooldownHas, cooldownSet, Vec2.sub, Vec2.cross, hn1, hn3,
    Real.arcsin_one, hpiq, beq_iff_eq, Prod.mk.injEq]


set_option maxHeartbeats 1000000 in
lemma form3_worldC1 (t1 t2 : TangleConstraint) (ht1a : t1.refA = ⟨0, 6⟩)
    (ht1b : t1.refB = ⟨1, 6⟩) (ht2a : t2.refA = ⟨0, 7⟩) (ht2b : t2.refB = ⟨1, 8⟩) :
    ∃ t : TangleConstraint,
      tanglePairCheck { worldC1 with tangleCooldowns := [((0, 1, 6, 6), 120), ((0, 1, 7, 8), 120)], tangleConstraints := [t1, t2], tangleNextId := 2 } ropeA1 ropeB1 ⟨⟨80, 0⟩, ⟨90, 0⟩, 8, 0⟩ ⟨⟨83, 5⟩, ⟨83, -5⟩, 10, 1⟩ =
        { worldC1 with tangleCooldowns := [((0, 1, 6, 6), 120), ((0, 1, 7, 8), 120), ((0, 1, 8, 10), 120)], tangleConstraints := [t1, t2, t], tangleNextId := 3 } ∧
      t.refA = ⟨0, 8⟩ ∧ t.refB = ⟨1, 10⟩ ∧ t.ropeAId = 0 ∧ t.ropeBId = 1 := by
  have hseg : Segment.segmentIntersection ⟨80, 0⟩ ⟨90, 0⟩ ⟨83, 5⟩ ⟨83, -5⟩ =
      some (⟨83, 0⟩, 3/10, 1/2) := by
    norm_num [Segment.segmentIntersection, Vec2.sub, Vec2.cross, Vec2.add, Vec2.mul]
  have hfA : findClosestParticle ropeA1 ⟨83, 0⟩ = 8 := by
    norm_num [findClosestParticle, findClosestAux, ropeA1, pinnedParticleAt,
      List.headI, distanceTo_lt_iff]
  have hfB : findClosestParticle ropeB1 ⟨83, 0⟩ = 10 := by
    norm_num [findClosestParticle, findClosestAux, ropeB1, pinnedParticleAt,
      List.headI, distanceTo_lt_iff]
  have htA : measureLocalTension ropeA1 8 = 18 := by
    norm_num [measureLocalTension, ropeA1, pinnedParticleAt, distanceTo_expand,
      sqrt_hundred, List.getD]
  have htB : measureLocalTension ropeB1 10 = 18 := by
    norm_num [measureLocalTension, ropeB1, pinnedParticleAt, distanceTo_expand,
      sqrt_hundred, List.getD]
  have hn1 : Vec2.normalize ⟨(10:ℝ), 0⟩ = ⟨1, 0⟩ := by
    rw [normalize_eval 10 0 10 (by norm_num) (by norm_num)]
    norm_num
  have hn2 : Vec2.normalize ⟨(0:ℝ), -10⟩ = ⟨0, -1⟩ := by
    rw [normalize_eval 0 (-10) 10 (by norm_num) (by norm_num)]
    norm_num
  have hpiq : ¬ (Real.pi / 2 < Real.pi / 4) := by linarith [Real.pi_pos]
  have hat : areTangled [t1, t2] ⟨0, 8⟩ ⟨1, 10⟩ = false := by
    simp only [areTangled, List.any_cons, List.any_nil, ht1a, ht1b, ht2a, ht2b]
    decide
  have hw1 : ({ worldC1 with tangleCooldowns := [((0, 1, 6, 6), 120), ((0, 1, 7, 8), 120)], tangleConstraints := [t1, t2], tangleNextId := 2 } : PhysicsWorld).tangleTensionThreshold = 25 := rfl
  have hw2 : ({ worldC1 with tangleCooldowns := [((0, 1, 6, 6), 120), ((0, 1, 7, 8), 120)], tangleConstraints := [t1, t2], tangleNextId := 2 } : PhysicsWorld).tangleCooldowns = [((0, 1, 6, 6), 120), ((0, 1, 7, 8), 120)] := rfl
  have hw3 : ({ worldC1 with tangleCooldowns := [((0, 1, 6, 6), 120), ((0, 1, 7, 8), 120)], tangleConstraints := [t1, t2], tangleNextId := 2 } : PhysicsWorld).tangleConstraints = [t1, t2] := rfl
  have hw4 : ({ worldC1 with tangleCooldowns := [((0, 1, 6, 6), 120), ((0, 1, 7, 8), 120)], tangleConstraints := [t1, t2], tangleNextId := 2 } : PhysicsWorld).onTangleFormedSet = false := rfl
  have hw5 : ({ worldC1 with tangleCooldowns := [((0, 1, 6, 6), 120), ((0, 1, 7, 8), 120)], tangleConstraints := [t1, t2], tangleNextId := 2 } : PhysicsWorld).tangleCooldownFrames = 120 := rfl
  have hw6 : ({ worldC1 with tangleCooldowns := [((0, 1, 6, 6), 120), ((0, 1, 7, 8), 120)], tangleConstraints := [t1, t2], tangleNextId := 2 } : PhysicsWorld).tangleNextId = 2 := rfl
  have hv1 : worldC1.tangleTensionThreshold = 25 := rfl
  have hv4 : worldC1.onTangleFormedSet = false := rfl
  have hv5 : worldC1.tangleCooldownFrames = 120 := rfl
  have hid1 : ropeA1.id = 0 := rfl
  have hid2 : ropeB1.id = 1 := rfl
  have hgA : ropeA1.particles.getD 8 default = pinnedParticleAt 80 0 := rfl
  have hgB : ropeB1.particles.getD 10 default = pinnedParticleAt 83 5 := rfl
  unfold tanglePairCheck
  simp only [hid1, hid2, hw2, hw3, hseg, hfA, hfB, htA, htB, hw1, hw4, hw5, hw6,
    hv1, hv4, hv5, hgA, hgB, hat]
  norm_num [cooldownHas, cooldownSet, Vec2.sub, Vec2.cross, hn1, hn2,
    Real.arcsin_one, hpiq, beq_iff_eq, Prod.mk.injEq]


set_option maxHeartbeats 2000000 in
lemma detectNewTangles_worldC1 :
    ∃ t1 t2 t3 : TangleConstraint,
      t1.ropeAId = 0 ∧ t1.ropeBId = 1 ∧ t2.ropeAId = 0 ∧ t2.ropeBId = 1 ∧
      t3.ropeAId = 0 ∧ t3.ropeBId = 1 ∧
      detectNewTangles worldC1 =
        { worldC1 with tangleCooldowns := [((0, 1, 6, 6), 120), ((0, 1, 7, 8), 120), ((0, 1, 8, 10), 120)], tangleConstraints := [t1, t2, t3], tangleNextId := 3 } := by
  obtain ⟨t1, he1, h1a, h1b, h1c, h1d⟩ := form1_worldC1
  obtain ⟨t2, he2, h2a, h2b, h2c, h2d⟩ := form2_worldC1 t1 h1a h1b
  obtain ⟨t3, he3, h3a, h3b, h3c, h3d⟩ := form3_worldC1 t1 t2 h1a h1b h2a h2b
  have hsk67 : tanglePairCheck { worldC1 with tangleCooldowns := [((0, 1, 6, 6), 120)], tangleConstraints := [t1], tangleNextId := 1 } ropeA1 ropeB1 ⟨⟨60, 0⟩, ⟨70, 0⟩, 6, 0⟩ ⟨⟨63, -5⟩, ⟨73, -5⟩, 7, 1⟩ = { worldC1 with tangleCooldowns := [((0, 1, 6, 6), 120)], tangleConstraints := [t1], tangleNextId := 1 } :=
    tanglePairCheck_skip _ ropeA1 ropeB1 _ _
      (by rw [show ({ worldC1 with tangleCooldowns := [((0, 1, 6, 6), 120)], tangleConstraints := [t1], tangleNextId := 1 } : PhysicsWorld).tangleCooldowns = [((0, 1, 6, 6), 120)] from rfl]; decide)
      (by norm_num [Segment.segmentIntersection, Vec2.sub, Vec2.cross])
  have hsk68 : tanglePairCheck { worldC1 with tangleCooldowns := [((0, 1, 6, 6), 120)], tangleConstraints := [t1], tangleNextId := 1 } ropeA1 ropeB1 ⟨⟨60, 0⟩, ⟨70, 0⟩, 6, 0⟩ ⟨⟨73, -5⟩, ⟨73, 5⟩, 8, 1⟩ = { worldC1 with tangleCooldowns := [((0, 1, 6, 6), 120)], tangleConstraints := [t1], tangleNextId := 1 } :=
    tanglePairCheck_skip _ ropeA1 ropeB1 _ _
      (by rw [show ({ worldC1 with tangleCooldowns := [((0, 1, 6, 6), 120)], tangleConstraints := [t1], tangleNextId := 1 } : PhysicsWorld).tangleCooldowns = [((0, 1, 6, 6), 120)] from rfl]; decide)
      (by norm_num [Segment.segmentIntersection, Vec2.sub, Vec2.cross])
  have hsk69 : tanglePairCheck { worldC1 with tangleCooldowns := [((0, 1, 6, 6), 120)], tangleConstraints := [t1], tangleNextId := 1 } ropeA1 ropeB1 ⟨⟨60, 0⟩, ⟨70, 0⟩, 6, 0⟩ ⟨⟨73, 5⟩, ⟨83, 5⟩, 9, 1⟩ = { worldC1 with tangleCooldowns := [((0, 1, 6, 6), 120)], tangleConstraints := [t1], tangleNextId := 1 } :=
    tanglePairCheck_skip _ ropeA1 ropeB1 _ _
      (by rw [show ({ worldC1 with tangleCooldowns := [((0, 1, 6, 6), 120)], tangleConstraints := [t1], tangleNextId := 1 } : PhysicsWorld).tangleCooldowns = [((0, 1, 6, 6), 120)] from rfl]; decide)
      (by norm_num [Segment.segmentIntersection, Vec2.sub, Vec2.cross])
  have hsk610 : tanglePairCheck { worldC1 with tangleCooldowns := [((0, 1, 6, 6), 120)], tangleConstraints := [t1], tangleNextId := 1 } ropeA1 ropeB1 ⟨⟨60, 0⟩, ⟨70, 0⟩, 6, 0⟩ ⟨⟨83, 5⟩, ⟨83, -5⟩, 10, 1⟩ = { worldC1 with tangleCooldowns := [((0, 1, 6, 6), 120)], tangleConstraints := [t1], tangleNextId := 1 } :=
    tanglePairCheck_skip _ ropeA1 ropeB1 _ _
      (by rw [show ({ worldC1 with tangleCooldowns := [((0, 1, 6, 6), 120)], tangleConstraints := [t1], tangleNextId := 1 } : PhysicsWorld).tangleCooldowns = [((0, 1, 6, 6), 120)] from rfl]; decide)
      (by norm_num [Segment.segmentIntersection, Vec2.sub, Vec2.cross])
  have hsk76 : tanglePairCheck { worldC1 with tangleCooldowns := [((0, 1, 6, 6), 120)], tangleConstraints := [t1], tangleNextId := 1 } ropeA1 ropeB1 ⟨⟨70, 0⟩, ⟨80, 0⟩, 7, 0⟩ ⟨⟨63, 5⟩, ⟨63, -5⟩, 6, 1⟩ = { worldC1 with tangleCooldowns := [((0, 1, 6, 6), 120)], tangleConstraints := [t1], tangleNextId := 1 } :=
    tanglePairCheck_skip _ ropeA1 ropeB1 _ _
      (by rw [show ({ worldC1 with tangleCooldowns := [((0, 1, 6, 6), 120)], tangleConstraints := [t1], tangleNextId := 1 } : PhysicsWorld).tangleCooldowns = [((0, 1, 6, 6), 120)] from rfl]; decide)
      (by norm_num [Segment.segmentIntersection, Vec2.sub, Vec2.cross])
  have hsk77 : tanglePairCheck { worldC1 with tangleCooldowns := [((0, 1, 6, 6), 120)], tangleConstraints := [t1], tangleNextId := 1 } ropeA1 ropeB1 ⟨⟨70, 0⟩, ⟨80, 0⟩, 7, 0⟩ ⟨⟨63, -5⟩, ⟨73, -5⟩, 7, 1⟩ = { worldC1 with tangleCooldowns := [((0, 1, 6, 6), 120)], tangleConstraints := [t1], tangleNextId := 1 } :=
    tanglePairCheck_skip _ ropeA1 ropeB1 _ _
      (by rw [show ({ worldC1 with tangleCooldowns := [((0, 1, 6, 6), 120)], tangleConstraints := [t1], tangleNextId := 1 } : PhysicsWorld).tangleCooldowns = [((0, 1, 6, 6), 120)] from rfl]; decide)
      (by norm_num [Segment.segmentIntersection, Vec2.sub, Vec2.cross])
  have hsk79 : tanglePairCheck { worldC1 with tangleCooldowns := [((0, 1, 6, 6), 120), ((0, 1, 7, 8), 120)], tangleConstraints := [t1, t2], tangleNextId := 2 } ropeA1 ropeB1 ⟨⟨70, 0⟩, ⟨80, 0⟩, 7, 0⟩ ⟨⟨73, 5⟩, ⟨83, 5⟩, 9, 1⟩ = { worldC1 with tangleCooldowns := [((0, 1, 6, 6), 120), ((0, 1, 7, 8), 120)], tangleConstraints := [t1, t2], tangleNextId := 2 } :=
    tanglePairCheck_skip _ ropeA1 ropeB1 _ _
      (by rw [show ({ worldC1 with tangleCooldowns := [((0, 1, 6, 6), 120), ((0, 1, 7, 8), 120)], tangleConstraints := [t1, t2], tangleNextId := 2 } : PhysicsWorld).tangleCooldowns = [((0, 1, 6, 6), 120), ((0, 1, 7, 8), 120)] from rfl]; decide)
      (by norm_num [Segment.segmentIntersection, Vec2.sub, Vec2.cross])
  have hsk710 : tanglePairCheck { worldC1 with tangleCooldowns := [((0, 1, 6, 6), 120), ((0, 1, 7, 8), 120)], tangleConstraints := [t1, t2], tangleNextId := 2 } ropeA1 ropeB1 ⟨⟨70, 0⟩, ⟨80, 0⟩, 7, 0⟩ ⟨⟨83, 5⟩, ⟨83, -5⟩, 10, 1⟩ = { worldC1 with tangleCooldowns := [((0, 1, 6, 6), 120), ((0, 1, 7, 8), 120)], tangleConstraints := [t1, t2], tangleNextId := 2 } :=
    tanglePairCheck_skip _ ropeA1 ropeB1 _ _
      (by rw [show ({ worldC1 with tangleCooldowns := [((0, 1, 6, 6), 120), ((0, 1, 7, 8), 120)], tangleConstraints := [t1, t2], tangleNextId := 2 } : PhysicsWorld).tangleCooldowns = [((0, 1, 6, 6), 120), ((0, 1, 7, 8), 120)] from rfl]; decide)
      (by norm_num [Segment.segmentIntersection, Vec2.sub, Vec2.cross])
  have hsk86 : tanglePairCheck { worldC1 with tangleCooldowns := [((0, 1, 6, 6), 120), ((0, 1, 7, 8), 120)], tangleConstraints := [t1, t2], tangleNextId := 2 } ropeA1 ropeB1 ⟨⟨80, 0⟩, ⟨90, 0⟩, 8, 0⟩ ⟨⟨63, 5⟩, ⟨63, -5⟩, 6, 1⟩ = { worldC1 with tangleCooldowns := [((0, 1, 6, 6), 120), ((0, 1, 7, 8), 120)], tangleConstraints := [t1, t2], tangleNextId := 2 } :=
    tanglePairCheck_skip _ ropeA1 ropeB1 _ _
      (by rw [show ({ worldC1 with tangleCooldowns := [((0, 1, 6, 6), 120), ((0, 1, 7, 8), 120)], tangleConstraints := [t1, t2], tangleNextId := 2 } : PhysicsWorld).tangleCooldowns = [((0, 1, 6, 6), 120), ((0, 1, 7, 8), 120)] from rfl]; decide)
      (by norm_num [Segment.segmentIntersection, Vec2.sub, Vec2.cross])
  have hsk87 : tanglePairCheck { worldC1 with tangleCooldowns := [((0, 1, 6, 6), 120), ((0, 1, 7, 8), 120)], tangleConstraints := [t1, t2], tangleNextId := 2 } ropeA1 ropeB1 ⟨⟨80, 0⟩, ⟨90, 0⟩, 8, 0⟩ ⟨⟨63, -5⟩, ⟨73, -5⟩, 7, 1⟩ = { worldC1 with tangleCooldowns := [((0, 1, 6, 6), 120), ((0, 1, 7, 8), 120)], tangleConstraints := [t1, t2], tangleNextId := 2 } :=
    tanglePairCheck_skip _ ropeA1 ropeB1 _ _
      (by rw [show ({ worldC1 with tangleCooldowns := [((0, 1, 6, 6), 120), ((0, 1, 7, 8), 120)], tangleConstraints := [t1, t2], tangleNextId := 2 } : PhysicsWorld).tangleCooldowns = [((0, 1, 6, 6), 120), ((0, 1, 7, 8), 120)] from rfl]; decide)
      (by norm_num [Segment.segmentIntersection, Vec2.sub, Vec2.cross])
  have hsk88 : tanglePairCheck { worldC1 with tangleCooldowns := [((0, 1, 6, 6), 120), ((0, 1, 7, 8), 120)], tangleConstraints := [t1, t2], tangleNextId := 2 } ropeA1 ropeB1 ⟨⟨80, 0⟩, ⟨90, 0⟩, 8, 0⟩ ⟨⟨73, -5⟩, ⟨73, 5⟩, 8, 1⟩ = { worldC1 with tangleCooldowns := [((0, 1, 6, 6), 120), ((0, 1, 7, 8), 120)], tangleConstraints := [t1, t2], tangleNextId := 2 } :=
    tanglePairCheck_skip _ ropeA1 ropeB1 _ _
      (by rw [show ({ worldC1 with tangleCooldowns := [((0, 1, 6, 6), 120), ((0, 1, 7, 8), 120)], tangleConstraints := [t1, t2], tangleNextId := 2 } : PhysicsWorld).tangleCooldowns = [((0, 1, 6, 6), 120), ((0, 1, 7, 8), 120)] from rfl]; decide)
      (by norm_num [Segment.segmentIntersection, Vec2.sub, Vec2.cross])
  have hsk89 : tanglePairCheck { worldC1 with tangleCooldowns := [((0, 1, 6, 6), 120), ((0, 1, 7, 8), 120)], tangleConstraints := [t1, t2], tangleNextId := 2 } ropeA1 ropeB1 ⟨⟨80, 0⟩, ⟨90, 0⟩, 8, 0⟩ ⟨⟨73, 5⟩, ⟨83, 5⟩, 9, 1⟩ = { worldC1 with tangleCooldowns := [((0, 1, 6, 6), 120), ((0, 1, 7, 8), 120)], tangleConstraints := [t1, t2], tangleNextId := 2 } :=
    tanglePairCheck_skip _ ropeA1 ropeB1 _ _
      (by rw [show ({ worldC1 with tangleCooldowns := [((0, 1, 6, 6), 120), ((0, 1, 7, 8), 120)], tangleConstraints := [t1, t2], tangleNextId := 2 } : PhysicsWorld).tangleCooldowns = [((0, 1, 6, 6), 120), ((0, 1, 7, 8), 120)] from rfl]; decide)
      (by norm_num [Segment.segmentIntersection, Vec2.sub, Vec2.cross])
  refine ⟨t1, t2, t3, h1c, h1d, h2c, h2d, h3c, h3d, ?_⟩
  have hred : detectNewTangles worldC1 = detectRopePairTangles worldC1 ropeA1 ropeB1 := rfl
  rw [hred]
  unfold detectRopePairTangles
  rw [if_neg (by decide), if_neg (by decide)]
  rw [show ropeA1.getSegments = [⟨⟨0, 0⟩, ⟨10, 0⟩, 0, 0⟩, ⟨⟨10, 0⟩, ⟨20, 0⟩, 1, 0⟩, ⟨⟨20, 0⟩, ⟨30, 0⟩, 2, 0⟩, ⟨⟨30, 0⟩, ⟨40, 0⟩, 3, 0⟩, ⟨⟨40, 0⟩, ⟨50, 0⟩, 4, 0⟩, ⟨⟨50, 0⟩, ⟨60, 0⟩, 5, 0⟩, ⟨⟨60, 0⟩, ⟨70, 0⟩, 6, 0⟩, ⟨⟨70, 0⟩, ⟨80, 0⟩, 7, 0⟩, ⟨⟨80, 0⟩, ⟨90, 0⟩, 8, 0⟩] from rfl, show ropeB1.getSegments = [⟨⟨3, 5⟩, ⟨13, 5⟩, 0, 1⟩, ⟨⟨13, 5⟩, ⟨23, 5⟩, 1, 1⟩, ⟨⟨23, 5⟩, ⟨33, 5⟩, 2, 1⟩, ⟨⟨33, 5⟩, ⟨43, 5⟩, 3, 1⟩, ⟨⟨43, 5⟩, ⟨53, 5⟩, 4, 1⟩, ⟨⟨53, 5⟩, ⟨63, 5⟩, 5, 1⟩, ⟨⟨63, 5⟩, ⟨63, -5⟩, 6, 1⟩, ⟨⟨63, -5⟩, ⟨73, -5⟩, 7, 1⟩, ⟨⟨73, -5⟩, ⟨73, 5⟩, 8, 1⟩, ⟨⟨73, 5⟩, ⟨83, 5⟩, 9, 1⟩, ⟨⟨83, 5⟩, ⟨83, -5⟩, 10, 1⟩] from rfl]
  set_option maxHeartbeats 4000000 in
  norm_num [List.foldl_cons, List.foldl_nil, he1, he2, he3, hsk67, hsk68, hsk69,
    hsk610, hsk76, hsk77, hsk79, hsk710, hsk86, hsk87, hsk88, hsk89]

def eventC2 : CrossingEvent :=
  { ropeAId := 0, ropeBId := 1, segA := 6, segB := 6, sign := -1, point := ⟨63, 0⟩ }

lemma foldl_fixed {α β : Type} (f : β → α → β) (l : List α) :
    ∀ init : β, (∀ b : β, ∀ a ∈ l, f b a = b) → l.foldl f init = init := by
  induction l with
  | nil => intro init h; rfl
  | cons a t ih =>
    intro init h
    rw [List.foldl_cons, h init a (by simp)]
    exact ih init (fun b x hx => h b x (by simp [hx]))


set_option maxHeartbeats 1000000 in
lemma detectRopeCrossings_A2B2_C2 (E : List CrossingEvent) :
    detectRopeCrossings { worldC2 with currentIntersections := [], crossingEvents := E } ropeA2 ropeB2 =
      { worldC2 with currentIntersections := [(0, 1, 6, 6)],
                     crossingEvents := E ++ [eventC2] } := by
  have hseg : Segment.segmentIntersection ⟨60, 0⟩ ⟨70, 0⟩ ⟨63, 5⟩ ⟨63, -5⟩ =
      some (⟨63, 0⟩, 3/10, 1/2) := by
    norm_num [Segment.segmentIntersection, Vec2.sub, Vec2.cross, Vec2.add, Vec2.mul]
  have hidA : ropeA2.id = 0 := rfl
  have hidB : ropeB2.id = 1 := rfl
  have hci : ({ worldC2 with currentIntersections := [], crossingEvents := E } : PhysicsWorld).currentIntersections = [] := rfl
  have hev : ({ worldC2 with currentIntersections := [], crossingEvents := E } : PhysicsWorld).crossingEvents = E := rfl
  have hh1 : (ropeA2.particles.getD 6 default).height = 0 := rfl
  have hh2 : (ropeA2.particles.getD 7 default).height = 0 := rfl
  have hh3 : (ropeB2.particles.getD 6 default).height = 0 := rfl
  have hh4 : (ropeB2.particles.getD 7 default).height = 0 := rfl
  have hg1 : (ropeA2.particles[6]?.getD default).height = 0 := rfl
  have hg2 : (ropeA2.particles[7]?.getD default).height = 0 := rfl
  have hg3 : (ropeB2.particles[6]?.getD default).height = 0 := rfl
  have hg4 : (ropeB2.particles[7]?.getD default).height = 0 := rfl
  unfold detectRopeCrossings
  rw [show ropeA2.getSegments = [⟨⟨0, 0⟩, ⟨10, 0⟩, 0, 0⟩, ⟨⟨10, 0⟩, ⟨20, 0⟩, 1, 0⟩, ⟨⟨20, 0⟩, ⟨30, 0⟩, 2, 0⟩, ⟨⟨30, 0⟩, ⟨40, 0⟩, 3, 0⟩, ⟨⟨40, 0⟩, ⟨50, 0⟩, 4, 0⟩, ⟨⟨50, 0⟩, ⟨60, 0⟩, 5, 0⟩, ⟨⟨60, 0⟩, ⟨70, 0⟩, 6, 0⟩] from rfl,
    show ropeB2.getSegments = [⟨⟨63, 65⟩, ⟨63, 55⟩, 0, 1⟩, ⟨⟨63, 55⟩, ⟨63, 45⟩, 1, 1⟩, ⟨⟨63, 45⟩, ⟨63, 35⟩, 2, 1⟩, ⟨⟨63, 35⟩, ⟨63, 25⟩, 3, 1⟩, ⟨⟨63, 25⟩, ⟨63, 15⟩, 4, 1⟩, ⟨⟨63, 15⟩, ⟨63, 5⟩, 5, 1⟩, ⟨⟨63, 5⟩, ⟨63, -5⟩, 6, 1⟩] from rfl]
  norm_num [List.foldl_cons, List.foldl_nil, hseg, hidA, hidB, hci, hev,
    hh1, hh2, hh3, hh4, hg1, hg2, hg3, hg4, eventC2]


set_option maxHeartbeats 1000000 in
lemma detectRopeCrossings_vs_C2 (w : PhysicsWorld) (X : Rope) :
    detectRopeCrossings w X ropeC2 = { w with currentIntersections := [] } := by
  unfold detectRopeCrossings
  rw [foldl_fixed _ _ _ ?h]
  case h =>
    intro b a ha
    by_cases hidx : a.index < 6
    · exact if_pos hidx
    · refine (if_neg hidx).trans ?_
      rw [show ropeC2.getSegments = [⟨⟨0, 1000⟩, ⟨10, 1000⟩, 0, 2⟩, ⟨⟨10, 1000⟩, ⟨20, 1000⟩, 1, 2⟩, ⟨⟨20, 1000⟩, ⟨30, 1000⟩, 2, 2⟩, ⟨⟨30, 1000⟩, ⟨40, 1000⟩, 3, 2⟩, ⟨⟨40, 1000⟩, ⟨50, 1000⟩, 4, 2⟩, ⟨⟨50, 1000⟩, ⟨60, 1000⟩, 5, 2⟩] from rfl]
      norm_num [List.foldl_cons, List.foldl_nil]
  all_goals simp


set_option maxHeartbeats 1000000 in
lemma detectRopePairTangles_A2B2_id (w : PhysicsWorld) (htc : w.tangleConstraints = [])
    (hcd : w.tangleCooldowns = []) (hmt : w.maxTotalTangles = 6)
    (hmp : w.maxTanglesPerRopePair = 2) :
    detectRopePairTangles w ropeA2 ropeB2 = w := by
  have hseg : Segment.segmentIntersection ⟨60, 0⟩ ⟨70, 0⟩ ⟨63, 5⟩ ⟨63, -5⟩ =
      some (⟨63, 0⟩, 3/10, 1/2) := by
    norm_num [Segment.segmentIntersection, Vec2.sub, Vec2.cross, Vec2.add, Vec2.mul]
  have hfA : findClosestParticle ropeA2 ⟨63, 0⟩ = 6 := by
    norm_num [findClosestParticle, findClosestAux, ropeA2, pinnedParticleAt,
      List.headI, distanceTo_lt_iff]
  have hfB : findClosestParticle ropeB2 ⟨63, 0⟩ = 6 := by
    norm_num [findClosestParticle, findClosestAux, ropeB2, pinnedParticleAt,
      List.headI, distanceTo_lt_iff]
  have htA : measureLocalTension ropeA2 6 = 0 := by
    norm_num [measureLocalTension, ropeA2, pinnedParticleAt, distanceTo_expand,
      sqrt_hundred, List.getD]
  have hn1 : Vec2.normalize ⟨(10:ℝ), 0⟩ = ⟨1, 0⟩ := by
    rw [normalize_eval 10 0 10 (by norm_num) (by norm_num)]
    norm_num
  have hn2 : Vec2.normalize ⟨(0:ℝ), -10⟩ = ⟨0, -1⟩ := by
    rw [normalize_eval 0 (-10) 10 (by norm_num) (by norm_num)]
    norm_num
  have hpiq : ¬ (Real.pi / 2 < Real.pi / 4) := by linarith [Real.pi_pos]
  unfold detectRopePairTangles
  rw [if_neg (by simp [hmt, htc]), if_neg (by simp [hmp, htc, countTanglesBetweenRopes])]
  rw [show ropeA2.getSegments = [⟨⟨0, 0⟩, ⟨10, 0⟩, 0, 0⟩, ⟨⟨10, 0⟩, ⟨20, 0⟩, 1, 0⟩, ⟨⟨20, 0⟩, ⟨30, 0⟩, 2, 0⟩, ⟨⟨30, 0⟩, ⟨40, 0⟩, 3, 0⟩, ⟨⟨40, 0⟩, ⟨50, 0⟩, 4, 0⟩, ⟨⟨50, 0⟩, ⟨60, 0⟩, 5, 0⟩, ⟨⟨60, 0⟩, ⟨70, 0⟩, 6, 0⟩] from rfl,
    show ropeB2.getSegments = [⟨⟨63, 65⟩, ⟨63, 55⟩, 0, 1⟩, ⟨⟨63, 55⟩, ⟨63, 45⟩, 1, 1⟩, ⟨⟨63, 45⟩, ⟨63, 35⟩, 2, 1⟩, ⟨⟨63, 35⟩, ⟨63, 25⟩, 3, 1⟩, ⟨⟨63, 25⟩, ⟨63, 15⟩, 4, 1⟩, ⟨⟨63, 15⟩, ⟨63, 5⟩, 5, 1⟩, ⟨⟨63, 5⟩, ⟨63, -5⟩, 6, 1⟩] from rfl]
  norm_num [List.foldl_cons, List.foldl_nil, tanglePairCheck, cooldownHas, hcd, htc,
    areTangled, hseg, hfA, hfB, htA, Vec2.sub, Vec2.cross, hn1, hn2,
    Real.arcsin_one, hpiq]


set_option maxHeartbeats 1000000 in
lemma detectRopePairTangles_vs_C2 (w : PhysicsWorld) (X : Rope)
    (htc : w.tangleConstraints = []) (hmt : w.maxTotalTangles = 6)
    (hmp : w.maxTanglesPerRopePair = 2) :
    detectRopePairTangles w X ropeC2 = w := by
  unfold detectRopePairTangles
  rw [if_neg (by simp [hmt, htc]), if_neg (by simp [hmp, htc, countTanglesBetweenRopes])]
  refine foldl_fixed _ _ _ ?_
  intro b a ha
  by_cases hidx : a.index < 6
  · exact if_pos hidx
  · refine (if_neg hidx).trans ?_
    rw [show ropeC2.getSegments = [⟨⟨0, 1000⟩, ⟨10, 1000⟩, 0, 2⟩, ⟨⟨10, 1000⟩, ⟨20, 1000⟩, 1, 2⟩, ⟨⟨20, 1000⟩, ⟨30, 1000⟩, 2, 2⟩, ⟨⟨30, 1000⟩, ⟨40, 1000⟩, 3, 2⟩, ⟨⟨40, 1000⟩, ⟨50, 1000⟩, 4, 2⟩, ⟨⟨50, 1000⟩, ⟨60, 1000⟩, 5, 2⟩] from rfl]
    norm_num [List.foldl_cons, List.foldl_nil]


set_option maxHeartbeats 1000000 in
lemma detectNewTangles_C2 (w : PhysicsWorld) (hro : w.ropes = [ropeA2, ropeB2, ropeC2])
    (htc : w.tangleConstraints = []) (hcd : w.tangleCooldowns = [])
    (hmt : w.maxTotalTangles = 6) (hmp : w.maxTanglesPerRopePair = 2) :
    detectNewTangles w = w := by
  have hg0 : w.ropes[0]?.getD default = ropeA2 := by rw [hro]; rfl
  have hg1 : w.ropes[1]?.getD default = ropeB2 := by rw [hro]; rfl
  have hg2 : w.ropes[2]?.getD default = ropeC2 := by rw [hro]; rfl
  have hAB := detectRopePairTangles_A2B2_id w htc hcd hmt hmp
  have hAC := detectRopePairTangles_vs_C2 w ropeA2 htc hmt hmp
  have hBC := detectRopePairTangles_vs_C2 w ropeB2 htc hmt hmp
  unfold detectNewTangles
  rw [hro, show List.range (List.length [ropeA2, ropeB2, ropeC2]) = [0, 1, 2] from rfl]
  norm_num [List.foldl_cons, List.foldl_nil, hg0, hg1, hg2, hAB, hAC, hBC]


set_option maxHeartbeats 1000000 in
lemma stepC2 (E : List CrossingEvent) :
    PhysicsWorld.step { worldC2 with currentIntersections := [], crossingEvents := E } (1/60) =
      { worldC2 with currentIntersections := [],
                     crossingEvents := E ++ [eventC2] } := by
  have hstatic : ({ worldC2 with currentIntersections := [], crossingEvents := E } : PhysicsWorld).staticWorld := worldC2_static
  have hga : worldC2.ropes[0]?.getD default = ropeA2 := rfl
  have hgb : worldC2.ropes[1]?.getD default = ropeB2 := rfl
  have hgc : worldC2.ropes[2]?.getD default = ropeC2 := rfl
  rw [step_static _ (1/60) hstatic]
  rw [show updateTangles { worldC2 with currentIntersections := [], crossingEvents := E } = detectNewTangles { worldC2 with currentIntersections := [], crossingEvents := E } from rfl]
  rw [detectNewTangles_C2 _ rfl rfl rfl rfl rfl]
  unfold detectCrossings
  rw [if_neg (fun h => Bool.noConfusion h)]
  rw [show List.range (({ worldC2 with currentIntersections := [], crossingEvents := E } : PhysicsWorld).ropes.length) = [0, 1, 2] from rfl]
  norm_num [List.foldl_cons, List.foldl_nil, hga, hgb, hgc,
    detectRopeCrossings_A2B2_C2, detectRopeCrossings_vs_C2]


set_option maxHeartbeats 1000000 in
/-- **C2** (refuted, code bug): crossing events are NOT deduplicated against the
previous tick's intersection set once more than two ropes exist.
`detectRopeCrossings` overwrites `currentIntersections` with the key set of the
rope pair it was called for, so the later pairs (ropeA-ropeC, ropeB-ropeC) wipe
the persistent A-B key (0, 1, 6, 6) from the set on every tick; two consecutive
`step` calls on `worldC2` therefore fire the SAME crossing event twice, and the
tick ends with an empty `currentIntersections` despite the A-B segments still
intersecting. -/
theorem crossing_callback_refires_every_step :
    (worldC2.step (1/60)).crossingEvents = [eventC2] ∧
    ((worldC2.step (1/60)).step (1/60)).crossingEvents = [eventC2, eventC2] ∧
    (worldC2.step (1/60)).currentIntersections = [] := by
  have h1 : worldC2.step (1/60) =
      { worldC2 with currentIntersections := [], crossingEvents := [eventC2] } := by
    have h0 := stepC2 []
    rw [show (([] : List CrossingEvent) ++ [eventC2]) = [eventC2] from rfl] at h0
    exact h0
  have h2 := stepC2 [eventC2]
  refine ⟨?_, ?_, ?_⟩
  · rw [h1]
  · rw [h1, h2]
    rfl
  · rw [h1]


set_option maxHeartbeats 1000000 in
/-- **C1** (refuted, code bug): the per-rope-pair tangle cap is not an invariant
of `PhysicsWorld.step`.  `detectRopePairTangles` checks `maxTanglesPerRopePair`
and `maxTotalTangles` only once at entry, never inside its segment loop, so a
single step on `worldC1` (whose cap is 2) creates 3 tangles between ropes 0
and 1 at the three simultaneous crossings of its stretched ropes. -/
theorem step_exceeds_max_tangles_per_rope_pair :
    worldC1.maxTanglesPerRopePair = 2 ∧
    countTanglesBetweenRopes ((worldC1.step (1/60)).tangleConstraints) 0 1 = 3 := by
  obtain ⟨t1, t2, t3, h1c, h1d, h2c, h2d, h3c, h3d, hdet⟩ := detectNewTangles_worldC1
  refine ⟨rfl, ?_⟩
  rw [step_static worldC1 (1/60) worldC1_static,
    show updateTangles worldC1 = detectNewTangles worldC1 from rfl, hdet]
  rw [show detectCrossings { worldC1 with tangleCooldowns := [((0, 1, 6, 6), 120), ((0, 1, 7, 8), 120), ((0, 1, 8, 10), 120)], tangleConstraints := [t1, t2, t3], tangleNextId := 3 } = { worldC1 with tangleCooldowns := [((0, 1, 6, 6), 120), ((0, 1, 7, 8), 120), ((0, 1, 8, 10), 120)], tangleConstraints := [t1, t2, t3], tangleNextId := 3 } from by
    unfold detectCrossings
    exact if_pos rfl]
  show countTanglesBetweenRopes [t1, t2, t3] 0 1 = 3
  simp [countTanglesBetweenRopes, h1c, h1d, h2c, h2d, h3c, h3d]

end

end ItsKnotFun
